import Mathlib

/-!
# Outbreaks and microbes: a shallow embedding of the referral backend

The request handlers of `src/modules/*/controller.js`, the token check of
`src/middleware/validators.js`, the mail helpers of `src/middleware/index.js`
and the route tables of `src/modules/*/router.js` are embedded as pure
functions over an explicit world (the three collections and the log of
dispatched mails).

Conventions:
* a JavaScript value that may be `undefined` is an `Option`;
* a thrown error is a `JsError` record (`name`, `message`, `status`, `body`);
* the document store is a list in insertion order, `findOne` returns the first
  match, `save` of a new document appends it, `save` of a loaded document
  writes the modified paths to the stored document with the same `_id`;
* freshly generated values (`ObjectId`, `cuid.slug()`) are inputs of the call.
-/

namespace OutbreakCats

/-! ## Values -/

/-- An object id of the document store. -/
abbrev ObjectId := Nat

/-- An identifier as it arrives in a url parameter or in a token payload:
either it casts to an `ObjectId`, or it does not (for example `1`). -/
inductive RawId where
  | wellFormed (id : ObjectId)
  | malformed (text : String)
  deriving DecidableEq, Repr

/-- JavaScript truthiness of a string that may be undefined. -/
def truthy (s : Option String) : Bool :=
  match s with
  | some t => t != ""
  | none => false

/-- String conversion of a template literal hole. -/
def jsString (s : Option String) : String :=
  match s with
  | some t => t
  | none => "undefined"

/-- The expression `x ? x : empty string`. -/
def orEmpty (s : Option String) : String :=
  if truthy s then jsString s else ""

/-! ## Errors -/

/-- The body built by `better.error`. -/
structure BetterBody where
  errors : List String
  message : Option String
  deriving DecidableEq, Repr

/-- A thrown JavaScript error. -/
structure JsError where
  name : String
  message : String
  status : Option Nat
  body : Option BetterBody
  deriving DecidableEq, Repr

/-- The argument of `better.error`. -/
structure ErrLike where
  body_message : Option String
  errors : List (String × Option String)
  message : Option String
  deriving DecidableEq, Repr

namespace better

/-- Source: `src/utils/better.js`, `better.error`. -/
def error (err : ErrLike) : BetterBody :=
  let message := if truthy err.body_message then err.body_message else err.message
  let errors := err.errors.filterMap (fun kv => if truthy kv.2 then kv.2 else none)
  { errors := errors, message := message }

end better

/-- Reason phrase of a status code. -/
def statusText (status : Nat) : String :=
  if status = 401 then "Unauthorized"
  else if status = 404 then "Not Found"
  else if status = 422 then "Unprocessable Entity"
  else "Internal Server Error"

/-- Error class name of a status code. -/
def statusName (status : Nat) : String :=
  if status = 401 then "UnauthorizedError"
  else if status = 404 then "NotFoundError"
  else if status = 422 then "UnprocessableEntityError"
  else "InternalServerError"

/-- The call `ctx.throw(status)`. -/
def ctxThrow (status : Nat) : JsError :=
  { name := statusName status, message := statusText status, status := some status, body := none }

/-- The call `ctx.throw(status, message)`. -/
def ctxThrowMsg (status : Nat) (message : String) : JsError :=
  { name := statusName status, message := message, status := some status, body := none }

/-- The call `ctx.throw(status, props)` with `props = better.error(..)`. -/
def ctxThrowProps (status : Nat) (props : BetterBody) : JsError :=
  { name := statusName status, message := statusText status, status := some status,
    body := some props }

/-- A `TypeError` raised by reading a property of `undefined`. -/
def typeError (property : String) : JsError :=
  { name := "TypeError",
    message := "Cannot read property \x27" ++ property ++ "\x27 of undefined",
    status := none, body := none }

/-- The storage layer rejects a malformed id. -/
def castError (text : String) : JsError :=
  { name := "CastError",
    message := "Cast to ObjectId failed for value \"" ++ text ++ "\" at path \"_id\"",
    status := none, body := none }

/-- The storage layer rejects a document whose required path is missing. -/
def validationError (model path : String) : JsError :=
  { name := "ValidationError",
    message := model ++ " validation failed: " ++ path ++ " is required",
    status := none, body := none }

/-- The storage layer rejects a document one of whose paths was set to a value
that does not cast. -/
def castValidationError (model path : String) : JsError :=
  { name := "ValidationError",
    message := model ++ " validation failed: " ++ path ++ ": Cast to ObjectID failed",
    status := none, body := none }

/-- The storage layer rejects a write that breaks a unique index. -/
def duplicateKeyError (index : String) : JsError :=
  { name := "MongoError",
    message := "E11000 duplicate key error index: " ++ index,
    status := none, body := none }

/-! ## Documents -/

/-- Modelled from the spec: the users model (`models/users`) is not among the
sources; a user is an identity with a credential hash. -/
structure User where
  _id : ObjectId
  username : String
  password : Option String
  deriving DecidableEq, Repr

/-- Source: `src/models/outbreaks.js`. -/
structure Outbreak where
  _id : ObjectId
  owner : ObjectId
  name : Option String
  referral_url : Option String
  outbreak_id : String
  signup_template : Option String
  nudge_template : Option String
  completion_template : Option String
  number_of_nudges : Int
  deriving DecidableEq, Repr

/-- Source: `src/models/microbes.js`. -/
structure Microbe where
  _id : ObjectId
  outbreak_id : ObjectId
  outbreak_slug : Option String
  name : Option String
  email : Option String
  mobile : Option String
  id_number : Option String
  referral_code : String
  microbials : List ObjectId
  deriving DecidableEq, Repr

/-- The object `ctx.request.body.microbe` of a create request. The field `code`
is not a schema path; every other field is one. -/
structure MicrobeBody where
  _id : Option ObjectId
  outbreak_id : Option String
  outbreak_slug : Option String
  name : Option String
  email : Option String
  mobile : Option String
  id_number : Option String
  referral_code : Option String
  microbials : Option (List ObjectId)
  code : Option String
  deriving DecidableEq, Repr

/-- The object `ctx.request.body.microbe` of an update request. -/
structure MicrobePatch where
  _id : Option ObjectId
  outbreak_id : Option RawId
  outbreak_slug : Option String
  name : Option String
  email : Option String
  mobile : Option String
  id_number : Option String
  referral_code : Option String
  microbials : Option (List ObjectId)
  deriving DecidableEq, Repr

/-- The object `ctx.request.body.outbreak` of a create or update request. -/
structure OutbreakBody where
  _id : Option ObjectId
  owner : Option RawId
  name : Option String
  referral_url : Option String
  outbreak_id : Option String
  signup_template : Option String
  nudge_template : Option String
  completion_template : Option String
  number_of_nudges : Option Int
  deriving DecidableEq, Repr

/-- The `email_data` bag of a dispatched mail. -/
inductive EmailData where
  | signup (referral_link : String) (name : String) (email : Option String)
      (referral_code : String)
  | nudge (referral_link : String) (referrers_count : Nat) (name : String)
      (email : Option String) (referral_code : String) (microbe_name : String)
      (microbe_email : Option String) (microbe_referral_code : String)
  deriving DecidableEq, Repr

/-- One call of `api.send`. -/
structure Mail where
  template : Option String
  address : Option String
  email_data : EmailData
  deriving DecidableEq, Repr

/-- Whether a dispatched mail is a signup confirmation. -/
def Mail.isSignup (m : Mail) : Bool :=
  match m.email_data with
  | .signup .. => true
  | .nudge .. => false

/-- Whether a dispatched mail is a nudge. -/
def Mail.isNudge (m : Mail) : Bool :=
  match m.email_data with
  | .signup .. => false
  | .nudge .. => true

/-- The collections and the log of dispatched mails. -/
structure World where
  users : List User
  outbreaks : List Outbreak
  microbes : List Microbe
  mails : List Mail
  deriving DecidableEq, Repr

/-- Values generated while a document is constructed. -/
structure Gen where
  objectId : ObjectId
  slug : String
  deriving DecidableEq, Repr

/-! ## Mail helpers -/

/-- Source: `src/middleware/index.js`, `sendSignupMail`. -/
def sendSignupMail (outbreak : Outbreak) (microbe : Microbe) : Mail :=
  { template := outbreak.signup_template
    address := microbe.email
    email_data := .signup
      (jsString outbreak.referral_url ++ "?code=" ++ microbe.referral_code)
      (orEmpty microbe.name)
      microbe.email
      microbe.referral_code }

/-- Source: `src/middleware/index.js`, `sendNudge`. The link is built from
`outbreak.referral_link`, which is not a path of the outbreak schema and so
reads as undefined. -/
def sendNudge (outbreak : Outbreak) (referrer : Microbe) (microbe : Microbe) : Mail :=
  { template := outbreak.nudge_template
    address := referrer.email
    email_data := .nudge
      (jsString none ++ "?code=" ++ referrer.referral_code)
      (if referrer.microbials.length ≠ 0 then referrer.microbials.length else 0)
      (orEmpty referrer.name)
      referrer.email
      referrer.referral_code
      (orEmpty microbe.name)
      microbe.email
      microbe.referral_code }

/-! ## Storage operations -/

/-- The query `User.findById(id)` without the password: a malformed id raises a cast
error, otherwise the first user with that id, without its password. -/
def User.findById (users : List User) (id : RawId) : Except JsError (Option User) :=
  match id with
  | .malformed text => .error (castError text)
  | .wellFormed oid =>
    .ok ((users.find? (fun u => u._id = oid)).map (fun u => { u with password := none }))

/-- The query `Outbreak.findOne` on the public `outbreak_id`. -/
def Outbreak.findOne (outbreaks : List Outbreak) (outbreak_id : String) : Option Outbreak :=
  outbreaks.find? (fun o => o.outbreak_id = outbreak_id)

/-- The query `Outbreak.findById(id)`. -/
def Outbreak.findById (outbreaks : List Outbreak) (id : RawId) :
    Except JsError (Option Outbreak) :=
  match id with
  | .malformed text => .error (castError text)
  | .wellFormed oid => .ok (outbreaks.find? (fun o => o._id = oid))

/-- The query `Microbe.findOne` on `referral_code`. -/
def Microbe.findOne (microbes : List Microbe) (referral_code : String) : Option Microbe :=
  microbes.find? (fun m => m.referral_code = referral_code)

/-- The query `Microbe.findById(id)`. -/
def Microbe.findById (microbes : List Microbe) (id : RawId) :
    Except JsError (Option Microbe) :=
  match id with
  | .malformed text => .error (castError text)
  | .wellFormed oid => .ok (microbes.find? (fun m => m._id = oid))

/-- Construction `new Microbe(_microbe)`: schema paths are copied from the
object, `_id` and `referral_code` take their generated default only when the
object does not carry them, `microbials` defaults to the empty array, and
`code` is dropped because it is not a schema path. The argument `outbreak_id`
is the value stamped on `_microbe.outbreak_id`. -/
def Microbe.new (gen : Gen) (_microbe : MicrobeBody) (outbreak_id : ObjectId) : Microbe :=
  { _id := _microbe._id.getD gen.objectId
    outbreak_id := outbreak_id
    outbreak_slug := _microbe.outbreak_slug
    name := _microbe.name
    email := _microbe.email
    mobile := _microbe.mobile
    id_number := _microbe.id_number
    referral_code := _microbe.referral_code.getD gen.slug
    microbials := _microbe.microbials.getD [] }

/-- Schema validation of a microbe before a save: `email` is required. -/
def Microbe.validate (m : Microbe) : Except JsError Unit :=
  if truthy m.email then .ok () else .error (validationError "microbes" "email")

/-- The call `microbe.save()` on a new document: validation, then an insert
that the store rejects when the `_id` or the unique `(email, outbreak_id)`
index is already taken. -/
def Microbe.insert (microbes : List Microbe) (m : Microbe) : Except JsError (List Microbe) :=
  match Microbe.validate m with
  | .error e => .error e
  | .ok _ =>
    if microbes.any (fun x => x._id = m._id) then
      .error (duplicateKeyError "_id_")
    else if microbes.any (fun x => x.email = m.email ∧ x.outbreak_id = m.outbreak_id) then
      .error (duplicateKeyError "email_1_outbreak_id_1")
    else .ok (microbes ++ [m])

/-- The call `referrer.save()` after `referrer.microbials.push(x)`: the pushed
id is written to the stored document whose `_id` is `id`. -/
def Microbe.push (microbes : List Microbe) (id : ObjectId) (x : ObjectId) : List Microbe :=
  microbes.map (fun m => if m._id = id then { m with microbials := m.microbials ++ [x] } else m)

/-! ## Token authentication -/

/-- The payload of a verified token. -/
structure Decoded where
  id : RawId
  deriving DecidableEq, Repr

/-- The contents of `ctx.body`. -/
inductive Body where
  | empty
  | microbe (microbe : Microbe)
  | microbes (microbes : List (Microbe × List Microbe))
  | outbreak (outbreak : Outbreak)
  | outbreaks (outbreaks : List Outbreak)
  | user (user : User)
  | success
  deriving DecidableEq, Repr

/-- The part of a request the handlers read. -/
structure Request where
  token : Option String
  id : RawId
  microbe : Option MicrobeBody
  microbe_patch : Option MicrobePatch
  outbreak : Option OutbreakBody
  deriving DecidableEq, Repr

/-- The request context `ctx`: `request.token` is the `x-auth-token` header. -/
structure Ctx where
  request : Request
  state_user : Option User
  body : Body
  status : Option Nat
  deriving DecidableEq, Repr

/-- What a chain of handlers leaves behind: the world, the context and the
error that was thrown, if any. -/
structure Reply where
  world : World
  ctx : Ctx
  error : Option JsError
  deriving DecidableEq, Repr

/-- The downstream handler `next`. -/
abbrev Next := World → Ctx → Reply

/-- Source: `src/middleware/validators.js`, `ensureUser`. The parameter
`verify` is `jsonwebtoken.verify(·, config.token)`; it returns `none` where
the library throws. -/
def ensureUser (verify : String → Option Decoded) (w : World) (ctx : Ctx) (next : Next) : Reply :=
  let token := ctx.request.token
  if !truthy token then
    { world := w, ctx := ctx,
      error := some (ctxThrowProps 401
        (better.error { body_message := none, errors := [], message := some "Unathorized" })) }
  else
    match verify (jsString token) with
    | none =>
      { world := w, ctx := ctx,
        error := some (ctxThrowProps 401
          (better.error { body_message := none, errors := [], message := some "Unathorized" })) }
    | some decoded =>
      match User.findById w.users decoded.id with
      | .error err => { world := w, ctx := ctx, error := some err }
      | .ok none =>
        { world := w, ctx := ctx,
          error := some (ctxThrowProps 401
            (better.error { body_message := none, errors := [], message := some "Unathorized" })) }
      | .ok (some user) => next w { ctx with state_user := some user }

/-! ## Microbes controller -/

/-- The nudge decision of `createMicrobe`: `outbreak.number_of_nudges &&
referrer.microbials && referrer.microbials.length <= outbreak.number_of_nudges`. -/
def nudgeDue (outbreak : Outbreak) (referrer : Microbe) : Bool :=
  outbreak.number_of_nudges ≠ 0 ∧ (referrer.microbials.length : Int) ≤ outbreak.number_of_nudges

/-- Source: `src/modules/microbes/controller.js`, `createMicrobe`, lines 68 to
77: the referrer lookup, the link and the nudge. Returns the microbes
collection and the mails dispatched by the step. -/
def linkReferrer (microbes : List Microbe) (outbreak : Outbreak) (microbe : Microbe)
    (code : Option String) : List Microbe × List Mail :=
  if truthy code then
    match Microbe.findOne microbes (jsString code) with
    | some referrer =>
      let referrer := { referrer with microbials := referrer.microbials ++ [microbe._id] }
      let microbes := Microbe.push microbes referrer._id microbe._id
      if nudgeDue outbreak referrer then
        (microbes, [sendNudge outbreak referrer microbe])
      else (microbes, [])
    | none => (microbes, [])
  else (microbes, [])

/-- Source: `src/modules/microbes/controller.js`, `createMicrobe`, lines 62 to
66: the body is copied, `outbreak_slug` takes the submitted outbreak code,
`outbreak_id` takes the id of the resolved outbreak, and the document is
constructed. -/
def buildMicrobe (gen : Gen) (body : MicrobeBody) (outbreak : Outbreak) : Microbe :=
  let _microbe := { body with outbreak_slug := body.outbreak_id }
  Microbe.new gen _microbe outbreak._id

/-- Source: `src/modules/microbes/controller.js`, `createMicrobe`. The argument
`req` is `ctx.request.body.microbe`; the result is the microbe put in
`ctx.body`, or the error thrown by the `catch` block. -/
def createMicrobe (w : World) (gen : Gen) (req : Option MicrobeBody) :
    World × Except JsError Microbe :=
  match req with
  | none => (w, .error (ctxThrowMsg 422 (typeError "outbreak_id").message))
  | some body =>
    if !truthy body.outbreak_id then
      (w, .error (ctxThrowMsg 422 (ctxThrowMsg 422 "You need an outbreak id").message))
    else
      match Outbreak.findOne w.outbreaks (jsString body.outbreak_id) with
      | none =>
        (w, .error (ctxThrowMsg 422
          (ctxThrowMsg 422 "The outbreak id you have supplied is invalid").message))
      | some outbreak =>
        let microbe := buildMicrobe gen body outbreak
        let linked := linkReferrer w.microbes outbreak microbe body.code
        let w1 := { w with microbes := linked.1, mails := w.mails ++ linked.2 }
        match Microbe.insert w1.microbes microbe with
        | .error err => (w1, .error (ctxThrowMsg 422 err.message))
        | .ok microbes =>
          ({ w1 with microbes := microbes, mails := w1.mails ++ [sendSignupMail outbreak microbe] },
            .ok microbe)

/-- The query `Microbe.find` of all documents, populated on `microbials`: every microbe
with the stored documents its `microbials` point at. -/
def Microbe.findPopulated (microbes : List Microbe) : List (Microbe × List Microbe) :=
  microbes.map (fun m =>
    (m, m.microbials.filterMap (fun id => microbes.find? (fun x => x._id = id))))

/-- Source: `src/modules/microbes/controller.js`, `getMicrobes`. -/
def getMicrobes (w : World) (ctx : Ctx) : Reply :=
  { world := w, ctx := { ctx with body := .microbes (Microbe.findPopulated w.microbes) },
    error := none }

/-- The `catch` block shared by `getMicrobe` and `getOutbreak`. -/
def catchNotFound (err : JsError) : JsError :=
  if err.status = some 404 ∨ err.name = "CastError" then ctxThrow 404 else ctxThrow 500

/-- Source: `src/modules/microbes/controller.js`, `getMicrobe`, with the
outcome of the query `Microbe.findById(ctx.params.id)` as an argument: the
record, nothing, or the error the query was rejected with. -/
def getMicrobeWith (found : Except JsError (Option Microbe)) (w : World) (ctx : Ctx)
    (next : Option Next) : Reply :=
  match found with
  | .error err => { world := w, ctx := ctx, error := some (catchNotFound err) }
  | .ok none => { world := w, ctx := ctx, error := some (catchNotFound (ctxThrow 404)) }
  | .ok (some microbe) =>
    let ctx := { ctx with body := .microbe microbe }
    match next with
    | some next => next w ctx
    | none => { world := w, ctx := ctx, error := none }

/-- Source: `src/modules/microbes/controller.js`, `getMicrobe`. -/
def getMicrobe (w : World) (ctx : Ctx) (next : Option Next) : Reply :=
  getMicrobeWith (Microbe.findById w.microbes ctx.request.id) w ctx next

/-- The call `Object.assign(microbe, patch)` on a loaded microbe: every path
the patch names is set on the document in memory, `_id` included; an
`outbreak_id` that does not cast is not set, and fails the validation of the
next save. -/
def Microbe.assign (m : Microbe) (p : MicrobePatch) : Microbe :=
  { _id := p._id.getD m._id
    outbreak_id :=
      match p.outbreak_id with
      | some (.wellFormed oid) => oid
      | _ => m.outbreak_id
    outbreak_slug := p.outbreak_slug.orElse (fun _ => m.outbreak_slug)
    name := p.name.orElse (fun _ => m.name)
    email := p.email.orElse (fun _ => m.email)
    mobile := p.mobile.orElse (fun _ => m.mobile)
    id_number := p.id_number.orElse (fun _ => m.id_number)
    referral_code := p.referral_code.getD m.referral_code
    microbials := p.microbials.getD m.microbials }

/-- The paths of a patch that change the loaded microbe: a path set to the
value it already has is not marked as modified, and a save writes the modified
paths only. -/
def Microbe.modified (m : Microbe) (p : MicrobePatch) : MicrobePatch :=
  { _id := if p._id = some m._id then none else p._id
    outbreak_id :=
      if p.outbreak_id = some (.wellFormed m.outbreak_id) then none else p.outbreak_id
    outbreak_slug := if p.outbreak_slug = m.outbreak_slug then none else p.outbreak_slug
    name := if p.name = m.name then none else p.name
    email := if p.email = m.email then none else p.email
    mobile := if p.mobile = m.mobile then none else p.mobile
    id_number := if p.id_number = m.id_number then none else p.id_number
    referral_code := if p.referral_code = some m.referral_code then none else p.referral_code
    microbials := if p.microbials = some m.microbials then none else p.microbials }

/-- Whether a microbe patch names a path with a value that does not cast. -/
def MicrobePatch.castFails (p : MicrobePatch) : Bool :=
  match p.outbreak_id with
  | some (.malformed _) => true
  | _ => false

/-- The call `microbe.save()` on a loaded microbe after
`Object.assign(microbe, patch)`: validation of the document in memory, then a
write of the modified paths to the stored document whose `_id` is the `_id` of
the document in memory, which the store rejects when the written document
would share its `(email, outbreak_id)` pair with another one. -/
def Microbe.update (microbes : List Microbe) (loaded : Microbe) (p : MicrobePatch) :
    Except JsError (List Microbe) :=
  let doc := Microbe.assign loaded p
  if p.castFails then .error (castValidationError "microbes" "outbreak_id")
  else
    match Microbe.validate doc with
    | .error e => .error e
    | .ok _ =>
      let written := microbes.map
        (fun x => if x._id = doc._id then Microbe.assign x (Microbe.modified loaded p) else x)
      if written.any (fun x => x._id = doc._id ∧
          written.any (fun y => y._id ≠ doc._id ∧ y.email = x.email ∧
            y.outbreak_id = x.outbreak_id))
      then .error (duplicateKeyError "email_1_outbreak_id_1")
      else .ok written

/-- Source: `src/modules/microbes/controller.js`, `updateMicrobe`. The record
in `ctx.body` is the document `Object.assign` modifies in place. -/
def updateMicrobe (w : World) (ctx : Ctx) : Reply :=
  match ctx.body with
  | .microbe microbe =>
    let patch := ctx.request.microbe_patch.getD
      { _id := none, outbreak_id := none, outbreak_slug := none, name := none, email := none,
        mobile := none, id_number := none, referral_code := none, microbials := none }
    match Microbe.update w.microbes microbe patch with
    | .error err =>
      { world := w, ctx := { ctx with body := .microbe (Microbe.assign microbe patch) },
        error := some err }
    | .ok microbes =>
      { world := { w with microbes := microbes },
        ctx := { ctx with body := .microbe (Microbe.assign microbe patch) },
        error := none }
  | _ => { world := w, ctx := ctx, error := some (typeError "microbe") }

/-- Source: `src/modules/microbes/controller.js`, `deleteMicrobe`. -/
def deleteMicrobe (w : World) (ctx : Ctx) : Reply :=
  match ctx.body with
  | .microbe microbe =>
    { world := { w with microbes := w.microbes.filter (fun x => x._id ≠ microbe._id) },
      ctx := { ctx with status := some 200, body := .success },
      error := none }
  | _ => { world := w, ctx := ctx, error := some (typeError "microbe") }

/-! ## Outbreaks controller -/

/-- Construction `new Outbreak(body)` followed by `outbreak.owner = owner`. -/
def Outbreak.new (gen : Gen) (body : Option OutbreakBody) (owner : ObjectId) : Outbreak :=
  match body with
  | none =>
    { _id := gen.objectId, owner := owner, name := none, referral_url := none,
      outbreak_id := gen.slug, signup_template := none, nudge_template := none,
      completion_template := none, number_of_nudges := 5 }
  | some body =>
    { _id := body._id.getD gen.objectId
      owner := owner
      name := body.name
      referral_url := body.referral_url
      outbreak_id := body.outbreak_id.getD gen.slug
      signup_template := body.signup_template
      nudge_template := body.nudge_template
      completion_template := body.completion_template
      number_of_nudges := body.number_of_nudges.getD 5 }

/-- Schema validation of an outbreak before a save: `name` is required. -/
def Outbreak.validate (o : Outbreak) : Except JsError Unit :=
  if truthy o.name then .ok () else .error (validationError "outbreaks" "name")

/-- The call `outbreak.save()` on a new document. -/
def Outbreak.insert (outbreaks : List Outbreak) (o : Outbreak) :
    Except JsError (List Outbreak) :=
  match Outbreak.validate o with
  | .error e => .error e
  | .ok _ =>
    if outbreaks.any (fun x => x._id = o._id) then .error (duplicateKeyError "_id_")
    else .ok (outbreaks ++ [o])

/-- Source: `src/modules/outbreaks/controller.js`, `createOutbreak`. -/
def createOutbreak (w : World) (gen : Gen) (ctx : Ctx) : Reply :=
  match ctx.state_user with
  | none => { world := w, ctx := ctx, error := some (ctxThrowMsg 422 (typeError "_id").message) }
  | some user =>
    let outbreak := Outbreak.new gen ctx.request.outbreak user._id
    match Outbreak.insert w.outbreaks outbreak with
    | .error err => { world := w, ctx := ctx, error := some (ctxThrowMsg 422 err.message) }
    | .ok outbreaks =>
      { world := { w with outbreaks := outbreaks }, ctx := { ctx with body := .outbreak outbreak },
        error := none }

/-- Source: `src/modules/outbreaks/controller.js`, `getOutbreaks`. -/
def getOutbreaks (w : World) (ctx : Ctx) : Reply :=
  { world := w, ctx := { ctx with body := .outbreaks w.outbreaks }, error := none }

/-- Source: `src/modules/outbreaks/controller.js`, `getOutbreak`, with the
outcome of the query `Outbreak.findById(ctx.params.id)` as an argument: the
record, nothing, or the error the query was rejected with. -/
def getOutbreakWith (found : Except JsError (Option Outbreak)) (w : World) (ctx : Ctx)
    (next : Option Next) : Reply :=
  match found with
  | .error err => { world := w, ctx := ctx, error := some (catchNotFound err) }
  | .ok none => { world := w, ctx := ctx, error := some (catchNotFound (ctxThrow 404)) }
  | .ok (some outbreak) =>
    let ctx := { ctx with body := .outbreak outbreak }
    match next with
    | some next => next w ctx
    | none => { world := w, ctx := ctx, error := none }

/-- Source: `src/modules/outbreaks/controller.js`, `getOutbreak`. -/
def getOutbreak (w : World) (ctx : Ctx) (next : Option Next) : Reply :=
  getOutbreakWith (Outbreak.findById w.outbreaks ctx.request.id) w ctx next

/-- The call `Object.assign(outbreak, patch)` on a loaded outbreak: every path
the patch names is set on the document in memory, `_id` included; an `owner`
that does not cast is not set, and fails the validation of the next save. -/
def Outbreak.assign (o : Outbreak) (p : OutbreakBody) : Outbreak :=
  { _id := p._id.getD o._id
    owner :=
      match p.owner with
      | some (.wellFormed oid) => oid
      | _ => o.owner
    name := p.name.orElse (fun _ => o.name)
    referral_url := p.referral_url.orElse (fun _ => o.referral_url)
    outbreak_id := p.outbreak_id.getD o.outbreak_id
    signup_template := p.signup_template.orElse (fun _ => o.signup_template)
    nudge_template := p.nudge_template.orElse (fun _ => o.nudge_template)
    completion_template := p.completion_template.orElse (fun _ => o.completion_template)
    number_of_nudges := p.number_of_nudges.getD o.number_of_nudges }

/-- The paths of a patch that change the loaded outbreak: a path set to the
value it already has is not marked as modified, and a save writes the modified
paths only. -/
def Outbreak.modified (o : Outbreak) (p : OutbreakBody) : OutbreakBody :=
  { _id := if p._id = some o._id then none else p._id
    owner := if p.owner = some (.wellFormed o.owner) then none else p.owner
    name := if p.name = o.name then none else p.name
    referral_url := if p.referral_url = o.referral_url then none else p.referral_url
    outbreak_id := if p.outbreak_id = some o.outbreak_id then none else p.outbreak_id
    signup_template :=
      if p.signup_template = o.signup_template then none else p.signup_template
    nudge_template := if p.nudge_template = o.nudge_template then none else p.nudge_template
    completion_template :=
      if p.completion_template = o.completion_template then none else p.completion_template
    number_of_nudges :=
      if p.number_of_nudges = some o.number_of_nudges then none else p.number_of_nudges }

/-- Whether an outbreak patch names a path with a value that does not cast. -/
def OutbreakBody.castFails (p : OutbreakBody) : Bool :=
  match p.owner with
  | some (.malformed _) => true
  | _ => false

/-- The call `outbreak.save()` on a loaded outbreak after
`Object.assign(outbreak, patch)`: validation of the document in memory, then a
write of the modified paths to the stored document whose `_id` is the `_id` of
the document in memory. -/
def Outbreak.update (outbreaks : List Outbreak) (loaded : Outbreak) (p : OutbreakBody) :
    Except JsError (List Outbreak) :=
  let doc := Outbreak.assign loaded p
  if p.castFails then .error (castValidationError "outbreaks" "owner")
  else
    match Outbreak.validate doc with
    | .error e => .error e
    | .ok _ =>
      .ok (outbreaks.map
        (fun x => if x._id = doc._id then Outbreak.assign x (Outbreak.modified loaded p) else x))

/-- Source: `src/modules/outbreaks/controller.js`, `updateOutbreak`. The record
in `ctx.body` is the document `Object.assign` modifies in place. -/
def updateOutbreak (w : World) (ctx : Ctx) : Reply :=
  match ctx.body with
  | .outbreak outbreak =>
    let patch := ctx.request.outbreak.getD
      { _id := none, owner := none, name := none, referral_url := none, outbreak_id := none,
        signup_template := none, nudge_template := none, completion_template := none,
        number_of_nudges := none }
    match Outbreak.update w.outbreaks outbreak patch with
    | .error err =>
      { world := w, ctx := { ctx with body := .outbreak (Outbreak.assign outbreak patch) },
        error := some err }
    | .ok outbreaks =>
      { world := { w with outbreaks := outbreaks },
        ctx := { ctx with body := .outbreak (Outbreak.assign outbreak patch) },
        error := none }
  | _ => { world := w, ctx := ctx, error := some (typeError "outbreak") }

/-- Source: `src/modules/outbreaks/controller.js`, `deleteOutbreak`. -/
def deleteOutbreak (w : World) (ctx : Ctx) : Reply :=
  match ctx.body with
  | .outbreak outbreak =>
    { world := { w with outbreaks := w.outbreaks.filter (fun x => x._id ≠ outbreak._id) },
      ctx := { ctx with status := some 200, body := .success },
      error := none }
  | _ => { world := w, ctx := ctx, error := some (typeError "outbreak") }

/-! ## Routers -/

/-- The handlers named in the route tables. -/
inductive Handler where
  | ensureUser
  | createMicrobe | getMicrobes | getMicrobe | updateMicrobe | deleteMicrobe
  | createOutbreak | getOutbreaks | getOutbreak | updateOutbreak | deleteOutbreak
  deriving DecidableEq, Repr

/-- One entry of a route table. -/
structure Route where
  method : String
  route : String
  handlers : List Handler
  deriving DecidableEq, Repr

namespace microbes

/-- Source: `src/modules/microbes/router.js`, the default export. -/
def routes : List Route :=
  [ { method := "POST", route := "/", handlers := [.createMicrobe] },
    { method := "GET", route := "/", handlers := [.ensureUser, .getMicrobes] },
    { method := "GET", route := "/:id", handlers := [.getMicrobe] },
    { method := "PUT", route := "/:id", handlers := [.ensureUser, .getMicrobe, .updateMicrobe] },
    { method := "DELETE", route := "/:id",
      handlers := [.ensureUser, .getMicrobe, .deleteMicrobe] } ]

end microbes

namespace outbreaks

/-- Source: `src/modules/outbreaks/router.js`, the default export. -/
def routes : List Route :=
  [ { method := "POST", route := "/", handlers := [.ensureUser, .createOutbreak] },
    { method := "GET", route := "/", handlers := [.ensureUser, .getOutbreaks] },
    { method := "GET", route := "/:id", handlers := [.ensureUser, .getOutbreak] },
    { method := "PUT", route := "/:id",
      handlers := [.ensureUser, .getOutbreak, .updateOutbreak] },
    { method := "DELETE", route := "/:id",
      handlers := [.ensureUser, .getOutbreak, .deleteOutbreak] } ]

end outbreaks

/-- What a request brings from outside the world: the token verifier and the
values generated while it is served. -/
structure Env where
  verify : String → Option Decoded
  gen : Gen

/-- One handler applied to its downstream handler. -/
def runHandler (env : Env) (h : Handler) (next : Next) : Next :=
  fun w ctx =>
    match h with
    | .ensureUser => ensureUser env.verify w ctx next
    | .createMicrobe =>
      match createMicrobe w env.gen ctx.request.microbe with
      | (w1, .error err) => { world := w1, ctx := ctx, error := some err }
      | (w1, .ok microbe) =>
        { world := w1, ctx := { ctx with body := .microbe microbe }, error := none }
    | .getMicrobes => getMicrobes w ctx
    | .getMicrobe => getMicrobe w ctx (some next)
    | .updateMicrobe => updateMicrobe w ctx
    | .deleteMicrobe => deleteMicrobe w ctx
    | .createOutbreak => createOutbreak w env.gen ctx
    | .getOutbreaks => getOutbreaks w ctx
    | .getOutbreak => getOutbreak w ctx (some next)
    | .updateOutbreak => updateOutbreak w ctx
    | .deleteOutbreak => deleteOutbreak w ctx

/-- The handlers of a route composed in order; past the last handler `next`
resolves without effect. -/
def runHandlers (env : Env) : List Handler → Next
  | [] => fun w ctx => { world := w, ctx := ctx, error := none }
  | h :: hs => runHandler env h (runHandlers env hs)

/-- The route of a table that serves a method and a path pattern. -/
def findRoute (routes : List Route) (method route : String) : Option Route :=
  routes.find? (fun r => r.method = method ∧ r.route = route)

/-- The status of the response, as `errorMiddleware` and the framework set it:
the thrown status or 500 on an error, else the explicit status, else 200 when
a body was set and 404 when none was. -/
def responseStatus (r : Reply) : Nat :=
  match r.error with
  | some err => err.status.getD 500
  | none =>
    match r.ctx.status with
    | some s => s
    | none => if r.ctx.body = .empty then 404 else 200

/-- A request served by a route table. -/
def serve (env : Env) (routes : List Route) (method route : String) (w : World) (ctx : Ctx) :
    Option Reply :=
  (findRoute routes method route).map (fun r => runHandlers env r.handlers w ctx)

/-- Whether `ensureUser` stands in a handler list before every other handler. -/
def guarded (r : Route) : Bool :=
  r.handlers.head? = some .ensureUser

/-- The three ways `ensureUser` rejects a request: no usable token, a token
that does not verify, or a verified token whose id finds no user. -/
def authRejects (verify : String → Option Decoded) (w : World) (ctx : Ctx) : Prop :=
  truthy ctx.request.token = false ∨
  verify (jsString ctx.request.token) = none ∨
  ∃ decoded, verify (jsString ctx.request.token) = some decoded ∧
    User.findById w.users decoded.id = .ok none

/-- The error `ensureUser` throws. -/
def unauthorized : JsError :=
  ctxThrowProps 401 { errors := [], message := some "Unathorized" }

/-- The mails a step dispatched: what the log gained. -/
def dispatched (before after : World) : List Mail :=
  after.mails.drop before.mails.length

/-- Successive create requests, each served in the world the previous one
left; for each request, the number of nudges it dispatched. -/
def nudgeCounts (w : World) : List (Gen × MicrobeBody) → List Nat
  | [] => []
  | call :: rest =>
    let r := createMicrobe w call.1 (some call.2)
    (dispatched w r.1).countP Mail.isNudge :: nudgeCounts r.1 rest

/-- The world successive create requests leave. -/
def createAll (w : World) : List (Gen × MicrobeBody) → World
  | [] => w
  | call :: rest => createAll (createMicrobe w call.1 (some call.2)).1 rest

/-- Whether each of the successive create requests succeeds. -/
def allSucceed (w : World) : List (Gen × MicrobeBody) → Bool
  | [] => true
  | call :: rest =>
    let r := createMicrobe w call.1 (some call.2)
    (match r.2 with
      | .ok _ => true
      | .error _ => false) && allSucceed r.1 rest

/-! ## Sequences of operations -/

/-- A context carrying only what the update and delete chains read: the id of
the url and the submitted patch. -/
def requestCtx (id : RawId) (microbe_patch : Option MicrobePatch)
    (outbreak : Option OutbreakBody) : Ctx :=
  { request := { token := none, id := id, microbe := none, microbe_patch := microbe_patch,
                 outbreak := outbreak },
    state_user := none, body := .empty, status := none }

/-- The operations that act on stored outbreaks and microbes once the token
check has passed. -/
inductive Op where
  | updateOutbreak (id : RawId) (patch : OutbreakBody)
  | createMicrobe (gen : Gen) (body : MicrobeBody)
  | updateMicrobe (id : RawId) (patch : MicrobePatch)
  | deleteMicrobe (id : RawId)
  deriving DecidableEq, Repr

/-- One operation, as its route chains the handlers: update and delete fetch
the record with `getOutbreak` or `getMicrobe` and hand it on in `ctx.body`. -/
def runOp (w : World) (op : Op) : World :=
  match op with
  | .updateOutbreak id patch =>
    (getOutbreak w (requestCtx id none (some patch)) (some updateOutbreak)).world
  | .createMicrobe gen body => (createMicrobe w gen (some body)).1
  | .updateMicrobe id patch =>
    (getMicrobe w (requestCtx id (some patch) none) (some updateMicrobe)).world
  | .deleteMicrobe id =>
    (getMicrobe w (requestCtx id none none) (some deleteMicrobe)).world

/-- Successive operations, each in the world the previous one left. -/
def runOps (w : World) : List Op → World
  | [] => w
  | op :: rest => runOps (runOp w op) rest

/-- Whether an operation leaves `owner` out of what it submits: every
operation but an outbreak update whose patch names `owner`. -/
def Op.leavesOwner (op : Op) : Bool :=
  match op with
  | .updateOutbreak _ patch => patch.owner.isNone
  | _ => true

/-- Whether an operation leaves `_id` and `microbials` to the code: a create
whose body submits neither and whose generated id is new (neither the id of a
stored microbe nor listed in any `microbials`), an update whose patch does not
name `microbials`, any delete, any outbreak update. -/
def Op.plain (w : World) (op : Op) : Bool :=
  match op with
  | .createMicrobe gen body =>
    body._id.isNone && body.microbials.isNone &&
      !(w.microbes.any (fun m => m._id = gen.objectId)) &&
      !(w.microbes.any (fun m => gen.objectId ∈ m.microbials))
  | .updateMicrobe _ patch => patch.microbials.isNone
  | .deleteMicrobe _ => true
  | .updateOutbreak _ _ => true

/-- Whether each of the successive operations is plain in the world it runs in. -/
def allPlain (w : World) : List Op → Bool
  | [] => true
  | op :: rest => op.plain w && allPlain (runOp w op) rest

/-- The referral relation of a collection: `a` refers `b` when both are stored
and the id of `b` is listed in the `microbials` of `a`. -/
def refers (ms : List Microbe) (a b : Microbe) : Prop :=
  a ∈ ms ∧ b ∈ ms ∧ b._id ∈ a.microbials

/-- The `microbials` relation of a collection is a forest: an id is listed by
at most one microbe, no microbe lists its own id, and following the relation
never leads back to where it started. -/
structure Forest (ms : List Microbe) : Prop where
  oneReferrer : ∀ a ∈ ms, ∀ b ∈ ms, ∀ x, x ∈ a.microbials → x ∈ b.microbials → a = b
  noSelf : ∀ a ∈ ms, a._id ∉ a.microbials
  noCycle : ∀ a, ¬ Relation.TransGen (refers ms) a a

/-- A field of a merged record against the patch: it holds the value of the
patch when the patch names it and its previous value when it does not. -/
def merged {α : Type} (patch : Option α) (old new : α) : Prop :=
  match patch with
  | some v => new = v
  | none => new = old

/-- An empty outbreak patch. -/
def noOutbreakPatch : OutbreakBody :=
  { _id := none, owner := none, name := none, referral_url := none, outbreak_id := none,
    signup_template := none, nudge_template := none, completion_template := none,
    number_of_nudges := none }

/-- An empty microbe patch. -/
def noMicrobePatch : MicrobePatch :=
  { _id := none, outbreak_id := none, outbreak_slug := none, name := none, email := none,
    mobile := none, id_number := none, referral_code := none, microbials := none }

/-- A field that may be absent, against the patch: it holds the value of the
patch when the patch names it and its previous value when it does not. -/
def mergedOpt {α : Type} (patch : Option α) (old new : Option α) : Prop :=
  match patch with
  | some v => new = some v
  | none => new = old

/-- An id of the url that finds no record among the stored ids: it does not
cast, or it casts to an id that is not stored. -/
def unresolved (ids : List ObjectId) (id : RawId) : Prop :=
  match id with
  | .malformed _ => True
  | .wellFormed i => i ∉ ids

instance (ids : List ObjectId) (id : RawId) : Decidable (unresolved ids id) :=
  match id with
  | .malformed _ => isTrue trivial
  | .wellFormed i => inferInstanceAs (Decidable (i ∉ ids))

/-! ## The referral links of a collection -/

/-- The links of a collection: for each stored microbe, in store order, its id
and its `microbials`. -/
abbrev Links := List (ObjectId × List ObjectId)

/-- The links of the stored microbes. -/
def links (ms : List Microbe) : Links :=
  ms.map (fun m => (m._id, m.microbials))

/-- Every id listed in some `microbials`, with repetitions. -/
def allRefs : Links → List ObjectId
  | [] => []
  | k :: l => k.2 ++ allRefs l

/-- Links point forward: no microbe lists its own id or the id of a microbe
stored before it. -/
def Ordered : Links → Prop
  | [] => True
  | k :: l => (∀ b ∈ k :: l, k.1 ∉ b.2) ∧ Ordered l

/-- The invariant the plain operations keep: stored ids are distinct, no id is
listed twice, and links point forward. -/
structure WellLinked (ks : Links) : Prop where
  ids : (ks.map Prod.fst).Nodup
  refs : (allRefs ks).Nodup
  ordered : Ordered ks

/-- The place of an id among the stored ids. -/
def position : Links → ObjectId → Nat
  | [], _ => 0
  | k :: l, i => if k.1 = i then 0 else position l i + 1

/-- The link written by `Microbe.push`. -/
def pushLink (ks : Links) (i x : ObjectId) : Links :=
  ks.map (fun k => if k.1 = i then (k.1, k.2 ++ [x]) else k)

/-! ## Sample data -/

/-- A create body with only the outbreak code and the email set. -/
def signupBody (outbreak_id email : String) : MicrobeBody :=
  { _id := none, outbreak_id := some outbreak_id, outbreak_slug := none, name := none,
    email := some email, mobile := none, id_number := none, referral_code := none,
    microbials := none, code := none }

/-- A sample user. -/
def sampleUser : User := { _id := 1, username := "ann", password := some "hash" }

/-- A sample outbreak with a nudge threshold of two. -/
def sampleOutbreak : Outbreak :=
  { _id := 10, owner := 1, name := some "Test outbreak", referral_url := some "https://o.io",
    outbreak_id := "ob", signup_template := some "tpl_s", nudge_template := some "tpl_n",
    completion_template := none, number_of_nudges := 2 }

/-- A sample stored microbe, the referrer of the examples. -/
def sampleReferrer : Microbe :=
  { _id := 20, outbreak_id := 10, outbreak_slug := some "ob", name := some "A",
    email := some "a@x", mobile := none, id_number := none, referral_code := "ra",
    microbials := [] }

/-- The microbe a signup of `b@x` under the sample outbreak creates. -/
def sampleSignup : Microbe :=
  { _id := 21, outbreak_id := 10, outbreak_slug := some "ob", name := none,
    email := some "b@x", mobile := none, id_number := none, referral_code := "rb",
    microbials := [] }

/-- A sample world: one user, one outbreak, one microbe, no mail sent yet. -/
def sampleWorld : World :=
  { users := [sampleUser], outbreaks := [sampleOutbreak], microbes := [sampleReferrer],
    mails := [] }

/-- A sample verifier: the only valid token is `good`, issued to the sample user. -/
def sampleVerify (token : String) : Option Decoded :=
  if token = "good" then some { id := .wellFormed 1 } else none

/-- A sample request for the document with id 20, carrying the given token. -/
def sampleCtx (token : Option String) : Ctx :=
  { request := { token := token, id := .wellFormed 20, microbe := none, microbe_patch := none,
                 outbreak := none },
    state_user := none, body := .empty, status := none }

/-- A sample environment. -/
def sampleEnv : Env := { verify := sampleVerify, gen := { objectId := 21, slug := "rb" } }

/-- A sample update request on the sample outbreak, fetched into `ctx.body`,
whose patch names only `name`. -/
def sampleRename : Ctx :=
  { request := { token := some "good", id := .wellFormed 10, microbe := none,
                 microbe_patch := none,
                 outbreak := some { noOutbreakPatch with name := some "Cool Outbreak" } },
    state_user := some sampleUser, body := .outbreak sampleOutbreak, status := none }

/-- The sample world before any signup: no microbe stored. -/
def emptyStore : World :=
  { users := [sampleUser], outbreaks := [sampleOutbreak], microbes := [], mails := [] }

/-- A sample update request on the sample referrer, fetched into `ctx.body`,
whose patch names only `name`. -/
def sampleMicrobeRename : Ctx :=
  { request := { token := some "good", id := .wellFormed 20, microbe := none,
                 microbe_patch := some { noMicrobePatch with name := some "Ann" },
                 outbreak := none },
    state_user := some sampleUser, body := .microbe sampleReferrer, status := none }

/-- A sample update request for the outbreak with id 10 carrying the given patch. -/
def samplePut (patch : OutbreakBody) : Ctx :=
  { request := { token := some "good", id := .wellFormed 10, microbe := none,
                 microbe_patch := none, outbreak := some patch },
    state_user := none, body := .empty, status := none }

/-! ## Theorems -/

/-! ### Token authentication -/

theorem unauthorized_status : unauthorized.status = some 401 := rfl

theorem better_error_unauthorized :
    better.error { body_message := none, errors := [], message := some "Unathorized" }
      = { errors := [], message := some "Unathorized" } := rfl

theorem User.findById_error_status (users : List User) (id : RawId) (err : JsError)
    (h : User.findById users id = .error err) : err.status = none := by
  cases id with
  | wellFormed oid => simp [User.findById] at h
  | malformed text =>
    simp [User.findById] at h
    subst h
    rfl

theorem ensureUser_of_rejects (verify : String → Option Decoded) (w : World) (ctx : Ctx)
    (h : authRejects verify w ctx) (next : Next) :
    ensureUser verify w ctx next = { world := w, ctx := ctx, error := some unauthorized } := by
  unfold ensureUser
  rcases h with h | h | ⟨d, hv, hf⟩
  · simp [h, unauthorized, better_error_unauthorized]
  · by_cases ht : truthy ctx.request.token = true
    · simp [ht, h, unauthorized, better_error_unauthorized]
    · simp [ht, unauthorized, better_error_unauthorized]
  · by_cases ht : truthy ctx.request.token = true
    · simp [ht, hv, hf, unauthorized, better_error_unauthorized]
    · simp [ht, unauthorized, better_error_unauthorized]

theorem ensureUser_lookup_raises (verify : String → Option Decoded) (w : World) (ctx : Ctx)
    (decoded : Decoded) (err : JsError) (next : Next)
    (ht : truthy ctx.request.token = true)
    (hv : verify (jsString ctx.request.token) = some decoded)
    (hf : User.findById w.users decoded.id = .error err) :
    ensureUser verify w ctx next = { world := w, ctx := ctx, error := some err } ∧
    responseStatus (ensureUser verify w ctx next) = 500 := by
  have hs := User.findById_error_status _ _ _ hf
  unfold ensureUser
  simp [ht, hv, hf, responseStatus, hs]

/-- C1: `ensureUser` fails with status 401, whatever the downstream handler is,
exactly when the `x-auth-token` header is absent or empty, or the token does
not verify, or the decoded id finds no user; and in each of these cases the
reply is the 401 error with the world and the context untouched, so `next` was
not invoked and `ctx.state.user` was not set. When none of the three holds and
the lookup itself does not raise, the user is put in `ctx.state.user` and the
reply is that of `next`. -/
theorem ensureUser_unauthorized_iff (verify : String → Option Decoded) (w : World) (ctx : Ctx) :
    ((∀ next : Next, ((ensureUser verify w ctx next).error.bind (fun e => e.status)) = some 401)
        ↔ authRejects verify w ctx) ∧
    (authRejects verify w ctx → ∀ next : Next,
        ensureUser verify w ctx next = { world := w, ctx := ctx, error := some unauthorized } ∧
        (ensureUser verify w ctx next).ctx.state_user = ctx.state_user) ∧
    (∀ decoded user, truthy ctx.request.token = true →
        verify (jsString ctx.request.token) = some decoded →
        User.findById w.users decoded.id = .ok (some user) →
        ∀ next : Next,
          ensureUser verify w ctx next = next w { ctx with state_user := some user }) := by
  refine ⟨⟨?_, ?_⟩, ?_, ?_⟩
  · intro h
    have h0 := h (fun w c => { world := w, ctx := c, error := none })
    unfold ensureUser at h0
    by_cases ht : truthy ctx.request.token = true
    · cases hv : verify (jsString ctx.request.token) with
      | none => exact Or.inr (Or.inl hv)
      | some d =>
        cases hf : User.findById w.users d.id with
        | error err =>
          have hs := User.findById_error_status _ _ _ hf
          simp [ht, hv, hf, hs] at h0
        | ok ou =>
          cases ou with
          | none => exact Or.inr (Or.inr ⟨d, hv, hf⟩)
          | some u => simp [ht, hv, hf] at h0
    · exact Or.inl (by simpa using ht)
  · intro h next
    rw [ensureUser_of_rejects verify w ctx h next]
    rfl
  · intro h next
    rw [ensureUser_of_rejects verify w ctx h next]
    exact ⟨rfl, rfl⟩
  · intro decoded user ht hv hf next
    unfold ensureUser
    simp [ht, hv, hf]

theorem ensureUser_unauthorized_iff_witness :
    authRejects sampleVerify sampleWorld (sampleCtx (some "bad")) ∧
    ensureUser sampleVerify sampleWorld (sampleCtx (some "bad"))
        (fun w ctx => { world := w, ctx := ctx, error := none }) =
      { world := sampleWorld, ctx := sampleCtx (some "bad"), error := some unauthorized } ∧
    ensureUser sampleVerify sampleWorld (sampleCtx (some "good"))
        (fun w ctx => { world := w, ctx := ctx, error := none }) =
      { world := sampleWorld,
        ctx := { sampleCtx (some "good") with
                 state_user := some { sampleUser with password := none } },
        error := none } :=
  ⟨Or.inr (Or.inl rfl),
   ((ensureUser_unauthorized_iff sampleVerify sampleWorld (sampleCtx (some "bad"))).2.1
      (Or.inr (Or.inl rfl)) _).1,
   (ensureUser_unauthorized_iff sampleVerify sampleWorld (sampleCtx (some "good"))).2.2
      { id := .wellFormed 1 } { sampleUser with password := none } rfl rfl rfl _⟩

/-! ### Creating a microbe: unfolding lemmas -/

theorem createMicrobe_resolved (w : World) (gen : Gen) (body : MicrobeBody) (outbreak : Outbreak)
    (hid : truthy body.outbreak_id = true)
    (ho : Outbreak.findOne w.outbreaks (jsString body.outbreak_id) = some outbreak) :
    createMicrobe w gen (some body) =
      match Microbe.insert
          (linkReferrer w.microbes outbreak (buildMicrobe gen body outbreak) body.code).1
          (buildMicrobe gen body outbreak) with
      | .error err =>
        ({ w with
            microbes :=
              (linkReferrer w.microbes outbreak (buildMicrobe gen body outbreak) body.code).1
            mails := w.mails ++
              (linkReferrer w.microbes outbreak (buildMicrobe gen body outbreak) body.code).2 },
          .error (ctxThrowMsg 422 err.message))
      | .ok microbes =>
        ({ w with
            microbes := microbes
            mails := w.mails ++
              (linkReferrer w.microbes outbreak (buildMicrobe gen body outbreak) body.code).2 ++
              [sendSignupMail outbreak (buildMicrobe gen body outbreak)] },
          .ok (buildMicrobe gen body outbreak)) := by
  simp only [createMicrobe, hid, ho]
  cases Microbe.insert
      (linkReferrer w.microbes outbreak (buildMicrobe gen body outbreak) body.code).1
      (buildMicrobe gen body outbreak) <;> simp

theorem createMicrobe_ok_inv (w w' : World) (gen : Gen) (req : Option MicrobeBody) (m : Microbe)
    (h : createMicrobe w gen req = (w', .ok m)) :
    ∃ body outbreak microbes,
      req = some body ∧ truthy body.outbreak_id = true ∧
      Outbreak.findOne w.outbreaks (jsString body.outbreak_id) = some outbreak ∧
      m = buildMicrobe gen body outbreak ∧
      Microbe.insert (linkReferrer w.microbes outbreak m body.code).1 m = .ok microbes ∧
      w' = { w with
              microbes := microbes
              mails := w.mails ++ (linkReferrer w.microbes outbreak m body.code).2 ++
                [sendSignupMail outbreak m] } := by
  cases req with
  | none => simp [createMicrobe] at h
  | some body =>
    by_cases hid : truthy body.outbreak_id = true
    · cases ho : Outbreak.findOne w.outbreaks (jsString body.outbreak_id) with
      | none => simp [createMicrobe, hid, ho] at h
      | some outbreak =>
        rw [createMicrobe_resolved w gen body outbreak hid ho] at h
        cases hi : Microbe.insert
            (linkReferrer w.microbes outbreak (buildMicrobe gen body outbreak) body.code).1
            (buildMicrobe gen body outbreak) with
        | error err => simp [hi] at h
        | ok microbes =>
          simp only [hi, Prod.mk.injEq, Except.ok.injEq] at h
          obtain ⟨hw, hm⟩ := h
          subst hm
          exact ⟨body, outbreak, microbes, rfl, hid, ho, rfl, hi, hw.symm⟩
    · simp [createMicrobe, hid] at h

theorem Microbe.insert_ok (ms ms' : List Microbe) (m : Microbe)
    (h : Microbe.insert ms m = .ok ms') :
    ms' = ms ++ [m] ∧ truthy m.email = true ∧
    (∀ x ∈ ms, x._id ≠ m._id) ∧
    (∀ x ∈ ms, ¬ (x.email = m.email ∧ x.outbreak_id = m.outbreak_id)) := by
  unfold Microbe.insert Microbe.validate at h
  by_cases hv : truthy m.email = true
  · simp only [hv, if_true] at h
    by_cases h1 : (ms.any (fun x => x._id = m._id)) = true
    · rw [if_pos h1] at h
      cases h
    · by_cases h2 : (ms.any (fun x => x.email = m.email ∧ x.outbreak_id = m.outbreak_id)) = true
      · rw [if_neg h1, if_pos h2] at h
        cases h
      · rw [if_neg h1, if_neg h2] at h
        refine ⟨by simpa using h.symm, hv, ?_, ?_⟩
        · intro x hx hxe
          exact h1 (List.any_eq_true.mpr ⟨x, hx, by simpa using hxe⟩)
        · intro x hx hxe
          exact h2 (List.any_eq_true.mpr ⟨x, hx, by simpa using hxe⟩)
  · simp [hv] at h

theorem linkReferrer_no_code (ms : List Microbe) (o : Outbreak) (m : Microbe) :
    linkReferrer ms o m none = (ms, []) := by
  simp [linkReferrer, truthy]

theorem linkReferrer_unknown_code (ms : List Microbe) (o : Outbreak) (m : Microbe) (c : String)
    (h : ∀ x ∈ ms, x.referral_code ≠ c) :
    linkReferrer ms o m (some c) = (ms, []) := by
  have hf : Microbe.findOne ms c = none := by
    unfold Microbe.findOne
    rw [List.find?_eq_none]
    intro x hx
    simpa using h x hx
  unfold linkReferrer
  by_cases ht : truthy (some c) = true
  · simp [ht, jsString, hf]
  · simp [ht]

theorem linkReferrer_mails (ms : List Microbe) (o : Outbreak) (m : Microbe) (c : Option String) :
    (linkReferrer ms o m c).2.length ≤ 1 ∧
    (∀ x ∈ (linkReferrer ms o m c).2, x.isSignup = false) := by
  unfold linkReferrer
  by_cases ht : truthy c = true
  · cases hf : Microbe.findOne ms (jsString c) with
    | none => simp [ht, hf]
    | some r =>
      simp only [ht, hf, if_true]
      split <;> simp [sendNudge, Mail.isSignup]
  · simp [ht]

theorem dispatched_append (w w' : World) (l : List Mail) (h : w'.mails = w.mails ++ l) :
    dispatched w w' = l := by
  simp [dispatched, h]

theorem truthy_eq_false_iff (s : Option String) :
    truthy s = false ↔ (s = none ∨ s = some "") := by
  cases s with
  | none => simp [truthy]
  | some t => simp [truthy]

theorem truthy_some (t : String) : truthy (some t) = true ↔ t ≠ "" := by
  simp [truthy]

theorem orEmpty_eq_getD (s : Option String) : orEmpty s = s.getD "" := by
  cases s with
  | none => simp [orEmpty, truthy]
  | some t =>
    by_cases ht : t = ""
    · simp [orEmpty, truthy, ht]
    · simp [orEmpty, truthy, ht, jsString]

theorem Outbreak.findOne_eq_none (os : List Outbreak) (s : String)
    (h : ∀ o ∈ os, o.outbreak_id ≠ s) : Outbreak.findOne os s = none := by
  unfold Outbreak.findOne
  rw [List.find?_eq_none]
  intro x hx
  simpa using h x hx

theorem createMicrobe_error_mails (w w' : World) (gen : Gen) (req : Option MicrobeBody)
    (err : JsError) (h : createMicrobe w gen req = (w', .error err)) :
    err.status = some 422 ∧
    ∃ l : List Mail, w'.mails = w.mails ++ l ∧ ∀ x ∈ l, x.isSignup = false := by
  cases req with
  | none =>
    simp only [createMicrobe, Prod.mk.injEq, Except.error.injEq] at h
    obtain ⟨hw, he⟩ := h
    subst hw; subst he
    exact ⟨rfl, [], by simp, by simp⟩
  | some body =>
    by_cases hid : truthy body.outbreak_id = true
    · cases ho : Outbreak.findOne w.outbreaks (jsString body.outbreak_id) with
      | none =>
        simp only [createMicrobe, hid, ho, Prod.mk.injEq, Except.error.injEq] at h
        simp only [Bool.not_true, Bool.false_eq_true, if_false, Prod.mk.injEq,
          Except.error.injEq] at h
        obtain ⟨hw, he⟩ := h
        subst hw; subst he
        exact ⟨rfl, [], by simp, by simp⟩
      | some outbreak =>
        rw [createMicrobe_resolved w gen body outbreak hid ho] at h
        cases hi : Microbe.insert
            (linkReferrer w.microbes outbreak (buildMicrobe gen body outbreak) body.code).1
            (buildMicrobe gen body outbreak) with
        | ok microbes => simp [hi] at h
        | error e =>
          simp only [hi, Prod.mk.injEq, Except.error.injEq] at h
          obtain ⟨hw, he⟩ := h
          subst hw; subst he
          exact ⟨rfl, _, rfl, (linkReferrer_mails _ _ _ _).2⟩
    · have hid' : truthy body.outbreak_id = false := by simpa using hid
      simp only [createMicrobe, hid', Bool.not_false, if_true, Prod.mk.injEq,
        Except.error.injEq] at h
      obtain ⟨hw, he⟩ := h
      subst hw; subst he
      exact ⟨rfl, [], by simp, by simp⟩

/-! ### Creating a microbe: main results -/

/-- C3: `createMicrobe` fails with status 422 and the message
`You need an outbreak id` when the submitted `outbreak_id` is missing or empty,
and with status 422 and the message `The outbreak id you have supplied is
invalid` when it equals the public `outbreak_id` of no stored outbreak; in both
cases the world is returned as it was: no microbe created or modified, no mail
dispatched. -/
theorem createMicrobe_outbreak_id_rejected (w : World) (gen : Gen) (body : MicrobeBody) :
    ((body.outbreak_id = none ∨ body.outbreak_id = some "") →
      createMicrobe w gen (some body) =
        (w, .error { name := "UnprocessableEntityError", message := "You need an outbreak id",
                     status := some 422, body := none })) ∧
    (∀ s : String, body.outbreak_id = some s → s ≠ "" →
      (∀ o ∈ w.outbreaks, o.outbreak_id ≠ s) →
      createMicrobe w gen (some body) =
        (w, .error { name := "UnprocessableEntityError",
                     message := "The outbreak id you have supplied is invalid",
                     status := some 422, body := none })) := by
  constructor
  · intro h
    have ht : truthy body.outbreak_id = false := (truthy_eq_false_iff _).2 h
    simp [createMicrobe, ht, ctxThrowMsg, statusName]
  · intro s hs hne hno
    have ht : truthy body.outbreak_id = true := by rw [hs]; exact (truthy_some s).2 hne
    have hf : Outbreak.findOne w.outbreaks (jsString body.outbreak_id) = none := by
      rw [hs]; exact Outbreak.findOne_eq_none _ _ hno
    simp [createMicrobe, ht, hf, ctxThrowMsg, statusName]

theorem createMicrobe_outbreak_id_rejected_witness :
    createMicrobe sampleWorld { objectId := 21, slug := "rb" } (some (signupBody "" "b@x")) =
        (sampleWorld, .error { name := "UnprocessableEntityError",
                               message := "You need an outbreak id",
                               status := some 422, body := none }) ∧
    createMicrobe sampleWorld { objectId := 21, slug := "rb" } (some (signupBody "zz" "b@x")) =
        (sampleWorld, .error { name := "UnprocessableEntityError",
                               message := "The outbreak id you have supplied is invalid",
                               status := some 422, body := none }) :=
  ⟨(createMicrobe_outbreak_id_rejected sampleWorld { objectId := 21, slug := "rb" }
      (signupBody "" "b@x")).1 (Or.inr rfl),
   (createMicrobe_outbreak_id_rejected sampleWorld { objectId := 21, slug := "rb" }
      (signupBody "zz" "b@x")).2 "zz" rfl (by decide) (by decide)⟩

/-- C5: when the supplied `code` equals the `referral_code` of no stored
microbe, `createMicrobe` returns exactly what the same call without a code
returns (same world, same created microbe or same error, the generated values
being the same inputs); on success the microbes are the previous ones,
unchanged and in order, followed by the new one, and the call dispatched one
signup mail and no nudge; on failure the world is unchanged. -/
theorem createMicrobe_unknown_code (w : World) (gen : Gen) (body : MicrobeBody) (c : String)
    (h : ∀ x ∈ w.microbes, x.referral_code ≠ c) :
    createMicrobe w gen (some { body with code := some c }) =
      createMicrobe w gen (some { body with code := none }) ∧
    (∀ w' m, createMicrobe w gen (some { body with code := some c }) = (w', .ok m) →
      ∃ outbreak, Outbreak.findOne w.outbreaks (jsString body.outbreak_id) = some outbreak ∧
        w'.microbes = w.microbes ++ [m] ∧
        dispatched w w' = [sendSignupMail outbreak m] ∧
        w'.users = w.users ∧ w'.outbreaks = w.outbreaks) ∧
    (∀ w' err, createMicrobe w gen (some { body with code := some c }) = (w', .error err) →
      w' = w) := by
  have hl : ∀ (o : Outbreak) (m : Microbe), linkReferrer w.microbes o m (some c) = (w.microbes, []) :=
    fun o m => linkReferrer_unknown_code _ o m c h
  refine ⟨?_, ?_, ?_⟩
  · simp only [createMicrobe]
    by_cases hid : truthy body.outbreak_id = true
    · cases ho : Outbreak.findOne w.outbreaks (jsString body.outbreak_id) with
      | none => simp [hid, ho]
      | some outbreak =>
        simp only [hid, ho, hl, linkReferrer_no_code]
        rfl
    · simp [hid]
  · intro w' m hc
    obtain ⟨b, outbreak, ms, hb, hid, ho, hm, hi, hw⟩ := createMicrobe_ok_inv _ _ _ _ _ hc
    simp only [Option.some.injEq] at hb
    subst hb
    simp only [hl] at hi hw
    obtain ⟨hms, -⟩ := Microbe.insert_ok _ _ _ hi
    refine ⟨outbreak, ho, ?_, ?_, ?_, ?_⟩
    · rw [hw]; exact hms
    · apply dispatched_append
      rw [hw]; simp
    · rw [hw]
    · rw [hw]
  · intro w' err hc
    by_cases hid : truthy body.outbreak_id = true
    · cases ho : Outbreak.findOne w.outbreaks (jsString body.outbreak_id) with
      | none =>
        simp only [createMicrobe, hid, ho, Bool.not_true, Bool.false_eq_true, if_false,
          Prod.mk.injEq] at hc
        exact hc.1.symm
      | some outbreak =>
        have hid' : truthy ({ body with code := some c } : MicrobeBody).outbreak_id = true := hid
        rw [createMicrobe_resolved w gen _ outbreak hid' ho] at hc
        simp only [hl] at hc
        cases hi : Microbe.insert w.microbes
            (buildMicrobe gen { body with code := some c } outbreak) with
        | ok microbes => simp [hi] at hc
        | error e =>
          simp only [hi, Prod.mk.injEq] at hc
          rw [← hc.1]
          simp
    · have hid' : truthy body.outbreak_id = false := by simpa using hid
      simp only [createMicrobe, hid', Bool.not_false, if_true, Prod.mk.injEq] at hc
      exact hc.1.symm

theorem createMicrobe_unknown_code_witness :
    createMicrobe sampleWorld { objectId := 21, slug := "rb" }
        (some { signupBody "ob" "b@x" with code := some "nope" }) =
      createMicrobe sampleWorld { objectId := 21, slug := "rb" }
        (some { signupBody "ob" "b@x" with code := none }) :=
  (createMicrobe_unknown_code sampleWorld { objectId := 21, slug := "rb" }
    (signupBody "ob" "b@x") "nope" (by decide)).1

/-- C9, refuted as stated: a body that submits its own `referral_code` gets a
microbe with that value, not the generated slug. -/
theorem createMicrobe_referral_code_from_body :
    ∃ w' m,
      createMicrobe sampleWorld { objectId := 21, slug := "rb" }
        (some { signupBody "ob" "b@x" with referral_code := some "mine" }) = (w', .ok m) ∧
      m.referral_code = "mine" ∧ m.referral_code ≠ "rb" :=
  ⟨_, _, rfl, rfl, by decide⟩

/-- C9, amended: for every successful `createMicrobe` call the created
microbe keeps the `referral_code` submitted in the body when there is one and
takes the newly generated slug when there is none; in both cases the value
does not depend on the supplied referrer `code`. -/
theorem createMicrobe_referral_code (w w' : World) (gen : Gen) (body : MicrobeBody) (m : Microbe)
    (h : createMicrobe w gen (some body) = (w', .ok m)) :
    (body.referral_code = none → m.referral_code = gen.slug) ∧
    (∀ r, body.referral_code = some r → m.referral_code = r) ∧
    (∀ (c : Option String) (w2 : World) (m2 : Microbe),
      createMicrobe w gen (some { body with code := c }) = (w2, .ok m2) →
      m2.referral_code = m.referral_code) := by
  have key : ∀ (b : MicrobeBody) (w1 : World) (m1 : Microbe),
      createMicrobe w gen (some b) = (w1, .ok m1) →
      m1.referral_code = b.referral_code.getD gen.slug := by
    intro b w1 m1 h1
    obtain ⟨b', outbreak, ms, hb, -, -, hm, -, -⟩ := createMicrobe_ok_inv _ _ _ _ _ h1
    simp only [Option.some.injEq] at hb
    subst hb
    rw [hm]
    rfl
  have hm := key body w' m h
  refine ⟨?_, ?_, ?_⟩
  · intro hn
    rw [hm, hn]; rfl
  · intro r hr
    rw [hm, hr]; rfl
  · intro c w2 m2 h2
    rw [key _ w2 m2 h2, hm]

theorem createMicrobe_referral_code_witness :
    (createMicrobe sampleWorld { objectId := 21, slug := "rb" }
        (some { signupBody "ob" "b@x" with code := some "ra" })).2 = .ok sampleSignup ∧
    sampleSignup.referral_code = "rb" :=
  ⟨rfl,
   (createMicrobe_referral_code sampleWorld _ { objectId := 21, slug := "rb" }
      { signupBody "ob" "b@x" with code := some "ra" } sampleSignup rfl).1 rfl⟩

/-- C10: a `createMicrobe` call that persists the new microbe dispatches
exactly one signup mail, whatever the referral code, the referrer and the
nudge: its template is the `signup_template` of the outbreak, it is addressed to
the email of the new microbe (present and non-empty), its `referral_link` is the
`referral_url` of the outbreak followed by `?code=` and the `referral_code` of
the new microbe, and it carries the name of the microbe (empty when absent),
its email and its `referral_code`. A call that fails dispatches no signup mail. -/
theorem createMicrobe_signup_mail (w : World) (gen : Gen) (req : Option MicrobeBody) :
    (∀ w' m, createMicrobe w gen req = (w', .ok m) →
      ∃ body outbreak email,
        req = some body ∧
        Outbreak.findOne w.outbreaks (jsString body.outbreak_id) = some outbreak ∧
        m.email = some email ∧ email ≠ "" ∧
        (dispatched w w').filter Mail.isSignup =
          [{ template := outbreak.signup_template
             address := some email
             email_data := .signup
               (jsString outbreak.referral_url ++ "?code=" ++ m.referral_code)
               (m.name.getD "") (some email) m.referral_code }] ∧
        (∀ url, outbreak.referral_url = some url →
          jsString outbreak.referral_url ++ "?code=" ++ m.referral_code =
            url ++ "?code=" ++ m.referral_code)) ∧
    (∀ w' err, createMicrobe w gen req = (w', .error err) →
      (dispatched w w').filter Mail.isSignup = []) := by
  constructor
  · intro w' m h
    obtain ⟨body, outbreak, ms, hb, hid, ho, hm, hi, hw⟩ := createMicrobe_ok_inv _ _ _ _ _ h
    obtain ⟨-, hv, -, -⟩ := Microbe.insert_ok _ _ _ hi
    cases he : m.email with
    | none => simp [he, truthy] at hv
    | some email =>
      have hne : email ≠ "" := by
        rw [he] at hv
        exact (truthy_some email).1 hv
      refine ⟨body, outbreak, email, hb, ho, rfl, hne, ?_, ?_⟩
      · have hd : dispatched w w' =
            (linkReferrer w.microbes outbreak m body.code).2 ++ [sendSignupMail outbreak m] := by
          apply dispatched_append
          rw [hw]; simp
        rw [hd, List.filter_append]
        have hn : (linkReferrer w.microbes outbreak m body.code).2.filter Mail.isSignup = [] := by
          rw [List.filter_eq_nil_iff]
          intro x hx
          simp [(linkReferrer_mails _ _ _ _).2 x hx]
        rw [hn]
        simp [sendSignupMail, Mail.isSignup, he, orEmpty_eq_getD]
      · intro url hu
        rw [hu]; rfl
  · intro w' err h
    obtain ⟨-, l, hl, hns⟩ := createMicrobe_error_mails _ _ _ _ _ h
    rw [dispatched_append w w' l hl, List.filter_eq_nil_iff]
    intro x hx
    simp [hns x hx]

/-! ### The referrer link -/

theorem Microbe.findOne_mem (ms : List Microbe) (c : String) (r : Microbe)
    (h : Microbe.findOne ms c = some r) : r ∈ ms ∧ r.referral_code = c := by
  unfold Microbe.findOne at h
  exact ⟨List.mem_of_find?_eq_some h, by simpa using List.find?_some h⟩

theorem Microbe.push_findOne (ms : List Microbe) (c : String) (r : Microbe) (x : ObjectId)
    (h : Microbe.findOne ms c = some r) :
    Microbe.findOne (Microbe.push ms r._id x) c =
      some { r with microbials := r.microbials ++ [x] } := by
  induction ms with
  | nil => simp [Microbe.findOne] at h
  | cons a l ih =>
    unfold Microbe.findOne Microbe.push at *
    rw [List.map_cons, List.find?_cons]
    by_cases hac : a.referral_code = c
    · have har : a = r := by simpa [List.find?_cons, hac] using h
      subst har
      simp [hac]
    · have hl : List.find? (fun m => decide (m.referral_code = c)) l = some r := by
        simpa [List.find?_cons, hac] using h
      have hsame : (if a._id = r._id then
          ({ a with microbials := a.microbials ++ [x] } : Microbe) else a).referral_code
            = a.referral_code := by
        split <;> rfl
      rw [hsame]
      simp only [hac, decide_False]
      exact ih hl

theorem Microbe.push_any (p : Microbe → Bool)
    (hp : ∀ (m : Microbe) (l : List ObjectId), p { m with microbials := l } = p m)
    (ms : List Microbe) (i x : ObjectId) :
    (Microbe.push ms i x).any p = ms.any p := by
  induction ms with
  | nil => rfl
  | cons a l ih =>
    unfold Microbe.push at *
    rw [List.map_cons, List.any_cons, List.any_cons, ih]
    congr 1
    split
    · exact hp _ _
    · rfl

theorem Microbe.push_countP (p : Microbe → Bool)
    (hp : ∀ (m : Microbe) (l : List ObjectId), p { m with microbials := l } = p m)
    (ms : List Microbe) (i x : ObjectId) :
    (Microbe.push ms i x).countP p = ms.countP p := by
  induction ms with
  | nil => rfl
  | cons a l ih =>
    unfold Microbe.push at *
    rw [List.map_cons, List.countP_cons, List.countP_cons, ih]
    have hsame : p (if a._id = i then
        ({ a with microbials := a.microbials ++ [x] } : Microbe) else a) = p a := by
      split
      · exact hp _ _
      · rfl
    rw [hsame]

theorem Microbe.push_length (ms : List Microbe) (i x : ObjectId) :
    (Microbe.push ms i x).length = ms.length := by
  simp [Microbe.push]

theorem Microbe.push_of_nodup (ms : List Microbe) (r : Microbe) (x : ObjectId)
    (hr : r ∈ ms) (hnd : (ms.map (fun m => m._id)).Nodup) :
    ∃ l1 l2, ms = l1 ++ r :: l2 ∧
      Microbe.push ms r._id x = l1 ++ { r with microbials := r.microbials ++ [x] } :: l2 := by
  obtain ⟨l1, l2, hms⟩ := List.append_of_mem hr
  refine ⟨l1, l2, hms, ?_⟩
  subst hms
  rw [List.map_append, List.map_cons] at hnd
  have hnd' := List.nodup_middle.1 hnd
  rw [List.nodup_cons] at hnd'
  have hnot : ∀ y ∈ l1 ++ l2, y._id ≠ r._id := by
    intro y hy hyr
    apply hnd'.1
    rw [← List.map_append, List.mem_map]
    exact ⟨y, hy, hyr⟩
  have hid : ∀ l : List Microbe, (∀ y ∈ l, y._id ≠ r._id) →
      l.map (fun m => if m._id = r._id then { m with microbials := m.microbials ++ [x] } else m)
        = l := by
    intro l hl
    induction l with
    | nil => rfl
    | cons a t iht =>
      have ha : a._id ≠ r._id := hl a (List.mem_cons_self _ _)
      rw [List.map_cons, if_neg ha, iht (fun y hy => hl y (List.mem_cons_of_mem _ hy))]
  unfold Microbe.push
  rw [List.map_append, List.map_cons,
    hid l1 (fun y hy => hnot y (List.mem_append_left _ hy)),
    hid l2 (fun y hy => hnot y (List.mem_append_right _ hy))]
  simp

theorem Microbe.insert_push (ms : List Microbe) (i x : ObjectId) (m : Microbe) :
    Microbe.insert (Microbe.push ms i x) m =
      match Microbe.insert ms m with
      | .error e => .error e
      | .ok _ => .ok (Microbe.push ms i x ++ [m]) := by
  unfold Microbe.insert
  rw [Microbe.push_any (fun y => decide (y._id = m._id)) (fun _ _ => rfl),
    Microbe.push_any (fun y => decide (y.email = m.email ∧ y.outbreak_id = m.outbreak_id))
      (fun _ _ => rfl)]
  cases Microbe.validate m with
  | error e => rfl
  | ok u =>
    by_cases h1 : (ms.any (fun y => decide (y._id = m._id))) = true
    · simp only [if_pos h1]
    · by_cases h2 : (ms.any (fun y =>
          decide (y.email = m.email ∧ y.outbreak_id = m.outbreak_id))) = true
      · simp only [if_neg h1, if_pos h2]
      · simp only [if_neg h1, if_neg h2]

theorem linkReferrer_found (ms : List Microbe) (o : Outbreak) (m r : Microbe) (c : String)
    (hc : c ≠ "") (hr : Microbe.findOne ms c = some r) :
    linkReferrer ms o m (some c) =
      (Microbe.push ms r._id m._id,
        if nudgeDue o { r with microbials := r.microbials ++ [m._id] } = true then
          [sendNudge o { r with microbials := r.microbials ++ [m._id] } m]
        else []) := by
  have ht : truthy (some c) = true := (truthy_some c).2 hc
  unfold linkReferrer
  simp only [ht, if_true, jsString, hr]
  split <;> rfl

theorem linkReferrer_fst (ms : List Microbe) (o : Outbreak) (m : Microbe) (c : Option String) :
    (linkReferrer ms o m c).1 = ms ∨ ∃ i x, (linkReferrer ms o m c).1 = Microbe.push ms i x := by
  unfold linkReferrer
  by_cases ht : truthy c = true
  · cases hf : Microbe.findOne ms (jsString c) with
    | none => simp [ht, hf]
    | some r =>
      right
      refine ⟨r._id, m._id, ?_⟩
      simp only [ht, hf, if_true]
      split <;> rfl
  · simp [ht]

theorem Microbe.insert_dup_pair (ms : List Microbe) (m : Microbe)
    (h : ∃ y ∈ ms, y.email = m.email ∧ y.outbreak_id = m.outbreak_id) :
    ∃ e, Microbe.insert ms m = .error e := by
  unfold Microbe.insert
  cases Microbe.validate m with
  | error e => exact ⟨e, rfl⟩
  | ok u =>
    by_cases h1 : (ms.any (fun y => decide (y._id = m._id))) = true
    · exact ⟨duplicateKeyError "_id_", by simp only [if_pos h1]⟩
    · have h2 : (ms.any (fun y =>
          decide (y.email = m.email ∧ y.outbreak_id = m.outbreak_id))) = true := by
        obtain ⟨y, hy, hp⟩ := h
        exact List.any_eq_true.mpr ⟨y, hy, by simpa using hp⟩
      exact ⟨duplicateKeyError "email_1_outbreak_id_1", by simp only [if_neg h1, if_pos h2]⟩

/-- C6: when the outbreak resolves and the supplied code is the referral code
under which the store finds the microbe R, and the stored ids are distinct,
`createMicrobe` leaves the microbes as they were except that R, at its place,
has the id of the new microbe appended after its previous `microbials` (every
other field of R and every other stored microbe is unchanged), followed by
the new microbe when its own save succeeds. -/
theorem createMicrobe_links_referrer (w : World) (gen : Gen) (body : MicrobeBody)
    (outbreak : Outbreak) (c : String) (R : Microbe)
    (hid : truthy body.outbreak_id = true)
    (ho : Outbreak.findOne w.outbreaks (jsString body.outbreak_id) = some outbreak)
    (hc : body.code = some c) (hne : c ≠ "")
    (hR : Microbe.findOne w.microbes c = some R)
    (hnd : (w.microbes.map (fun m => m._id)).Nodup) :
    ∃ l1 l2, w.microbes = l1 ++ R :: l2 ∧
      (createMicrobe w gen (some body)).1.microbes =
        l1 ++ { R with
                microbials := R.microbials ++ [(buildMicrobe gen body outbreak)._id] } :: l2 ++
          (match (createMicrobe w gen (some body)).2 with
            | .ok m => [m]
            | .error _ => []) := by
  obtain ⟨l1, l2, hms, hpush⟩ :=
    Microbe.push_of_nodup w.microbes R (buildMicrobe gen body outbreak)._id
      (Microbe.findOne_mem _ _ _ hR).1 hnd
  refine ⟨l1, l2, hms, ?_⟩
  rw [createMicrobe_resolved w gen body outbreak hid ho, hc,
    linkReferrer_found w.microbes outbreak _ R c hne hR]
  simp only []
  rw [Microbe.insert_push]
  cases hi : Microbe.insert w.microbes (buildMicrobe gen body outbreak) with
  | error e => simp [hpush]
  | ok ms => simp [hpush]

theorem createMicrobe_links_referrer_witness :
    ∃ l1 l2, sampleWorld.microbes = l1 ++ sampleReferrer :: l2 ∧
      (createMicrobe sampleWorld { objectId := 21, slug := "rb" }
          (some { signupBody "ob" "b@x" with code := some "ra" })).1.microbes =
        l1 ++ { sampleReferrer with
                microbials := sampleReferrer.microbials ++
                  [(buildMicrobe { objectId := 21, slug := "rb" }
                    { signupBody "ob" "b@x" with code := some "ra" } sampleOutbreak)._id] }
            :: l2 ++
          (match (createMicrobe sampleWorld { objectId := 21, slug := "rb" }
              (some { signupBody "ob" "b@x" with code := some "ra" })).2 with
            | .ok m => [m]
            | .error _ => []) :=
  createMicrobe_links_referrer sampleWorld { objectId := 21, slug := "rb" }
    { signupBody "ob" "b@x" with code := some "ra" } sampleOutbreak "ra" sampleReferrer
    rfl rfl rfl (by decide) rfl (by decide)

/-- C8: when `createMicrobe` finds a referrer R for the supplied code and the
save of the new microbe is then rejected by the store with an error, the call
fails with status 422 and the message of that error, and the world it leaves has
R saved with the id of the never-saved microbe appended to its `microbials`:
the link is written before the save and is not rolled back, and no microbe was
added. -/
theorem createMicrobe_failed_save_keeps_link (w : World) (gen : Gen) (body : MicrobeBody)
    (outbreak : Outbreak) (c : String) (R : Microbe) (err : JsError)
    (hid : truthy body.outbreak_id = true)
    (ho : Outbreak.findOne w.outbreaks (jsString body.outbreak_id) = some outbreak)
    (hc : body.code = some c) (hne : c ≠ "")
    (hR : Microbe.findOne w.microbes c = some R)
    (hfail : Microbe.insert
        (Microbe.push w.microbes R._id (buildMicrobe gen body outbreak)._id)
        (buildMicrobe gen body outbreak) = .error err) :
    ∃ w', createMicrobe w gen (some body) =
        (w', .error { name := "UnprocessableEntityError", message := err.message,
                      status := some 422, body := none }) ∧
      w'.microbes = Microbe.push w.microbes R._id (buildMicrobe gen body outbreak)._id ∧
      Microbe.findOne w'.microbes c =
        some { R with
               microbials := R.microbials ++ [(buildMicrobe gen body outbreak)._id] } ∧
      { R with microbials := R.microbials ++ [(buildMicrobe gen body outbreak)._id] }
        ∈ w'.microbes ∧
      w'.microbes.length = w.microbes.length := by
  have hfind := Microbe.push_findOne w.microbes c R (buildMicrobe gen body outbreak)._id hR
  rw [createMicrobe_resolved w gen body outbreak hid ho, hc,
    linkReferrer_found w.microbes outbreak _ R c hne hR]
  simp only [hfail]
  exact ⟨_, rfl, rfl, hfind, (Microbe.findOne_mem _ _ _ hfind).1, Microbe.push_length _ _ _⟩

theorem createMicrobe_failed_save_keeps_link_witness :
    ∃ w', createMicrobe sampleWorld { objectId := 21, slug := "rb" }
        (some { signupBody "ob" "a@x" with code := some "ra" }) =
        (w', .error { name := "UnprocessableEntityError",
                      message := (duplicateKeyError "email_1_outbreak_id_1").message,
                      status := some 422, body := none }) ∧
      w'.microbes = Microbe.push sampleWorld.microbes sampleReferrer._id
        (buildMicrobe { objectId := 21, slug := "rb" }
          { signupBody "ob" "a@x" with code := some "ra" } sampleOutbreak)._id ∧
      Microbe.findOne w'.microbes "ra" =
        some { sampleReferrer with
               microbials := sampleReferrer.microbials ++
                 [(buildMicrobe { objectId := 21, slug := "rb" }
                   { signupBody "ob" "a@x" with code := some "ra" } sampleOutbreak)._id] } ∧
      { sampleReferrer with
        microbials := sampleReferrer.microbials ++
          [(buildMicrobe { objectId := 21, slug := "rb" }
            { signupBody "ob" "a@x" with code := some "ra" } sampleOutbreak)._id] }
        ∈ w'.microbes ∧
      w'.microbes.length = sampleWorld.microbes.length :=
  createMicrobe_failed_save_keeps_link sampleWorld { objectId := 21, slug := "rb" }
    { signupBody "ob" "a@x" with code := some "ra" } sampleOutbreak "ra" sampleReferrer
    (duplicateKeyError "email_1_outbreak_id_1") rfl rfl rfl (by decide) rfl rfl

/-- C4: after a successful `createMicrobe`, a second call with the same email
and the same outbreak code, served in the world the first one left, fails with
status 422; after the first call, and still after the second, the store holds
exactly one microbe with the (email, outbreak_id) pair of the created one. -/
theorem createMicrobe_duplicate_rejected (w w1 : World) (gen1 gen2 : Gen)
    (body1 body2 : MicrobeBody) (m1 : Microbe)
    (h1 : createMicrobe w gen1 (some body1) = (w1, .ok m1))
    (hob : body2.outbreak_id = body1.outbreak_id)
    (hem : body2.email = body1.email) :
    ∃ w2 err, createMicrobe w1 gen2 (some body2) = (w2, .error err) ∧
      err.status = some 422 ∧
      w1.microbes.countP
        (fun x => decide (x.email = m1.email ∧ x.outbreak_id = m1.outbreak_id)) = 1 ∧
      w2.microbes.countP
        (fun x => decide (x.email = m1.email ∧ x.outbreak_id = m1.outbreak_id)) = 1 := by
  obtain ⟨b, outbreak, ms, hb, hid, ho, hm, hi, hw⟩ := createMicrobe_ok_inv _ _ _ _ _ h1
  simp only [Option.some.injEq] at hb
  subst hb
  obtain ⟨hms, -, -, hnopair⟩ := Microbe.insert_ok _ _ _ hi
  have hw1m : w1.microbes = (linkReferrer w.microbes outbreak m1 body1.code).1 ++ [m1] := by
    rw [hw]; exact hms
  have hw1o : w1.outbreaks = w.outbreaks := by rw [hw]
  have hcount1 : w1.microbes.countP
      (fun x => decide (x.email = m1.email ∧ x.outbreak_id = m1.outbreak_id)) = 1 := by
    rw [hw1m, List.countP_append]
    have h0 : (linkReferrer w.microbes outbreak m1 body1.code).1.countP
        (fun x => decide (x.email = m1.email ∧ x.outbreak_id = m1.outbreak_id)) = 0 := by
      rw [List.countP_eq_zero]
      intro x hx
      simpa using hnopair x hx
    rw [h0]
    simp
  have hid2 : truthy body2.outbreak_id = true := by rw [hob]; exact hid
  have ho2 : Outbreak.findOne w1.outbreaks (jsString body2.outbreak_id) = some outbreak := by
    rw [hw1o, hob]; exact ho
  have hpair : (buildMicrobe gen2 body2 outbreak).email = m1.email ∧
      (buildMicrobe gen2 body2 outbreak).outbreak_id = m1.outbreak_id := by
    rw [hm]
    exact ⟨hem, rfl⟩
  have hmem : m1 ∈ w1.microbes := by rw [hw1m]; simp
  obtain ⟨e, he⟩ := Microbe.insert_dup_pair w1.microbes (buildMicrobe gen2 body2 outbreak)
    ⟨m1, hmem, hpair.1.symm, hpair.2.symm⟩
  have hfail : ∃ e', Microbe.insert
      (linkReferrer w1.microbes outbreak (buildMicrobe gen2 body2 outbreak) body2.code).1
      (buildMicrobe gen2 body2 outbreak) = .error e' := by
    rcases linkReferrer_fst w1.microbes outbreak (buildMicrobe gen2 body2 outbreak) body2.code
      with hl | ⟨i, x, hl⟩
    · rw [hl]; exact ⟨e, he⟩
    · rw [hl, Microbe.insert_push, he]; exact ⟨e, rfl⟩
  obtain ⟨e', he'⟩ := hfail
  rw [createMicrobe_resolved w1 gen2 body2 outbreak hid2 ho2]
  simp only [he']
  refine ⟨_, _, rfl, rfl, hcount1, ?_⟩
  rcases linkReferrer_fst w1.microbes outbreak (buildMicrobe gen2 body2 outbreak) body2.code
    with hl | ⟨i, x, hl⟩
  · simp only [hl]; exact hcount1
  · simp only [hl]
    rw [Microbe.push_countP
      (fun x => decide (x.email = m1.email ∧ x.outbreak_id = m1.outbreak_id)) (fun _ _ => rfl)]
    exact hcount1

theorem createMicrobe_duplicate_rejected_witness :
    ∃ w2 err,
      createMicrobe
        (createMicrobe sampleWorld { objectId := 21, slug := "rb" }
          (some (signupBody "ob" "b@x"))).1
        { objectId := 22, slug := "rc" } (some (signupBody "ob" "b@x")) = (w2, .error err) ∧
      err.status = some 422 ∧
      (createMicrobe sampleWorld { objectId := 21, slug := "rb" }
          (some (signupBody "ob" "b@x"))).1.microbes.countP
        (fun x => decide (x.email = some "b@x" ∧ x.outbreak_id = 10)) = 1 ∧
      w2.microbes.countP
        (fun x => decide (x.email = some "b@x" ∧ x.outbreak_id = 10)) = 1 :=
  createMicrobe_duplicate_rejected sampleWorld _ { objectId := 21, slug := "rb" }
    { objectId := 22, slug := "rc" } (signupBody "ob" "b@x") (signupBody "ob" "b@x")
    ⟨21, 10, some "ob", none, some "b@x", none, none, "rb", []⟩ rfl rfl rfl

/-! ### Nudges up to the threshold -/

theorem nudgeDue_iff (outbreak : Outbreak) (r : Microbe) (N : Nat)
    (hN : outbreak.number_of_nudges = (N : Int)) :
    nudgeDue outbreak r = true ↔ (N ≠ 0 ∧ r.microbials.length ≤ N) := by
  unfold nudgeDue
  rw [hN]
  simp only [decide_eq_true_eq, ne_eq, Nat.cast_eq_zero, Nat.cast_le]

theorem sendNudge_isNudge (o : Outbreak) (r m : Microbe) : (sendNudge o r m).isNudge = true := rfl

theorem sendSignupMail_isNudge (o : Outbreak) (m : Microbe) :
    (sendSignupMail o m).isNudge = false := rfl

theorem createMicrobe_nudge_step (w w' : World) (gen : Gen) (body : MicrobeBody) (m : Microbe)
    (outbreak : Outbreak) (s c : String) (R : Microbe)
    (ho : Outbreak.findOne w.outbreaks s = some outbreak)
    (hc : c ≠ "") (hR : Microbe.findOne w.microbes c = some R)
    (hbs : body.outbreak_id = some s) (hbc : body.code = some c)
    (h : createMicrobe w gen (some body) = (w', .ok m)) :
    w'.outbreaks = w.outbreaks ∧
    Microbe.findOne w'.microbes c = some { R with microbials := R.microbials ++ [m._id] } ∧
    (dispatched w w').countP Mail.isNudge =
      if nudgeDue outbreak { R with microbials := R.microbials ++ [m._id] } = true then 1 else 0 := by
  obtain ⟨b, o2, ms, hb, -, ho2, -, hi, hw⟩ := createMicrobe_ok_inv _ _ _ _ _ h
  simp only [Option.some.injEq] at hb
  subst hb
  rw [hbs] at ho2
  simp only [jsString] at ho2
  rw [ho] at ho2
  simp only [Option.some.injEq] at ho2
  subst ho2
  rw [hbc, linkReferrer_found w.microbes outbreak m R c hc hR] at hi hw
  simp only [] at hi hw
  obtain ⟨hms, -, -, -⟩ := Microbe.insert_ok _ _ _ hi
  refine ⟨by rw [hw], ?_, ?_⟩
  · have hf := Microbe.push_findOne w.microbes c R m._id hR
    rw [hw]
    simp only [hms]
    unfold Microbe.findOne at hf ⊢
    rw [List.find?_append, hf]
    rfl
  · have hd : dispatched w w' =
        (if nudgeDue outbreak { R with microbials := R.microbials ++ [m._id] } = true then
          [sendNudge outbreak { R with microbials := R.microbials ++ [m._id] } m]
        else []) ++ [sendSignupMail outbreak m] := by
      apply dispatched_append
      rw [hw]
      simp
    rw [hd, List.countP_append]
    by_cases hn : nudgeDue outbreak { R with microbials := R.microbials ++ [m._id] } = true
    · simp [hn, sendNudge_isNudge, sendSignupMail_isNudge]
    · simp [hn, sendSignupMail_isNudge]

theorem nudgeCounts_general (N : Nat) (s c : String) (hc : c ≠ "")
    (calls : List (Gen × MicrobeBody)) :
    ∀ (w : World) (outbreak : Outbreak) (R : Microbe) (k : Nat),
      Outbreak.findOne w.outbreaks s = some outbreak →
      outbreak.number_of_nudges = (N : Int) →
      Microbe.findOne w.microbes c = some R →
      R.microbials.length = k →
      (∀ call ∈ calls, call.2.outbreak_id = some s ∧ call.2.code = some c) →
      allSucceed w calls = true →
      nudgeCounts w calls =
        (List.range calls.length).map (fun i => if N ≠ 0 ∧ k + i + 1 ≤ N then 1 else 0) := by
  induction calls with
  | nil => intros; rfl
  | cons call rest ih =>
    intro w outbreak R k ho hN hR hk hcalls hok
    obtain ⟨hbs, hbc⟩ := hcalls call (List.mem_cons_self _ _)
    simp only [allSucceed, Bool.and_eq_true] at hok
    obtain ⟨hok1, hok2⟩ := hok
    cases hr : createMicrobe w call.1 (some call.2) with
    | mk w' res =>
      rw [hr] at hok1 hok2
      cases res with
      | error e => simp at hok1
      | ok m =>
        obtain ⟨ho', hR', hcount⟩ :=
          createMicrobe_nudge_step w w' call.1 call.2 m outbreak s c R ho hc hR hbs hbc hr
        have ih' := ih w' outbreak { R with microbials := R.microbials ++ [m._id] } (k + 1)
          (by rw [ho']; exact ho) hN hR' (by simp [hk])
          (fun x hx => hcalls x (List.mem_cons_of_mem _ hx)) hok2
        simp only [nudgeCounts, hr, List.length_cons]
        rw [ih', hcount, List.range_succ_eq_map, List.map_cons, List.map_map]
        congr 1
        · have hl : ({ R with microbials := R.microbials ++ [m._id] } : Microbe).microbials.length
              = k + 1 := by simp [hk]
          by_cases hd : nudgeDue outbreak { R with microbials := R.microbials ++ [m._id] } = true
          · have := (nudgeDue_iff outbreak _ N hN).1 hd
            rw [hl] at this
            simp [hd, this]
          · have hnot : ¬ (N ≠ 0 ∧ k + 1 ≤ N) := by
              intro hcon
              apply hd
              apply (nudgeDue_iff outbreak _ N hN).2
              rw [hl]; exact hcon
            simp only [hd]
            simp only [Nat.add_zero]
            rw [if_neg hnot]
            simp
        · apply List.map_congr_left
          intro i _
          simp only [Function.comp, Nat.succ_eq_add_one]
          have : k + 1 + i + 1 = k + (i + 1) + 1 := by omega
          rw [this]

theorem range_threshold (N : Nat) :
    (List.range (N + 1)).map (fun i => if N ≠ 0 ∧ 0 + i + 1 ≤ N then 1 else 0)
      = List.replicate N 1 ++ [0] := by
  rw [List.range_succ, List.map_append]
  congr 1
  · rw [List.eq_replicate_iff]
    refine ⟨by simp, ?_⟩
    intro b hb
    rw [List.mem_map] at hb
    obtain ⟨i, hi, hb⟩ := hb
    rw [List.mem_range] at hi
    have : N ≠ 0 ∧ 0 + i + 1 ≤ N := ⟨by omega, by omega⟩
    rw [if_pos this] at hb
    exact hb.symm
  · have : ¬ (N ≠ 0 ∧ 0 + N + 1 ≤ N) := by omega
    simp only [List.map_cons, List.map_nil, if_neg this]

/-- C2: for a threshold N, an outbreak with `number_of_nudges = N` that the
outbreak code resolves, and a referrer R with an empty `microbials` list that
the (non-empty) referral code resolves, N+1 successive successful
`createMicrobe` calls carrying that outbreak code and that referral code
dispatch one nudge for each of the first N calls and none for the last one, N
nudges in total. -/
theorem nudges_up_to_threshold (N : Nat) (w : World) (outbreak : Outbreak) (R : Microbe)
    (s c : String) (calls : List (Gen × MicrobeBody))
    (ho : Outbreak.findOne w.outbreaks s = some outbreak)
    (hN : outbreak.number_of_nudges = (N : Int))
    (hc : c ≠ "") (hR : Microbe.findOne w.microbes c = some R) (hR0 : R.microbials = [])
    (hlen : calls.length = N + 1)
    (hcalls : ∀ call ∈ calls, call.2.outbreak_id = some s ∧ call.2.code = some c)
    (hok : allSucceed w calls = true) :
    nudgeCounts w calls = List.replicate N 1 ++ [0] ∧ (nudgeCounts w calls).sum = N := by
  have h := nudgeCounts_general N s c hc calls w outbreak R 0 ho hN hR
    (by simp [hR0]) hcalls hok
  rw [hlen, range_threshold] at h
  refine ⟨h, ?_⟩
  rw [h]
  simp

theorem nudges_up_to_threshold_witness :
    nudgeCounts sampleWorld
      [({ objectId := 21, slug := "rb" }, { signupBody "ob" "b@x" with code := some "ra" }),
       ({ objectId := 22, slug := "rc" }, { signupBody "ob" "c@x" with code := some "ra" }),
       ({ objectId := 23, slug := "rd" }, { signupBody "ob" "d@x" with code := some "ra" })]
      = [1, 1, 0] :=
  (nudges_up_to_threshold 2 sampleWorld sampleOutbreak sampleReferrer "ob" "ra"
    [({ objectId := 21, slug := "rb" }, { signupBody "ob" "b@x" with code := some "ra" }),
     ({ objectId := 22, slug := "rc" }, { signupBody "ob" "c@x" with code := some "ra" }),
     ({ objectId := 23, slug := "rd" }, { signupBody "ob" "d@x" with code := some "ra" })]
    rfl rfl (by decide) rfl rfl rfl (by decide) rfl).1

theorem createMicrobe_signup_mail_witness :
    (dispatched sampleWorld
        (createMicrobe sampleWorld { objectId := 21, slug := "rb" }
          (some { signupBody "ob" "b@x" with code := some "ra" })).1).filter Mail.isSignup =
      [{ template := some "tpl_s", address := some "b@x",
         email_data := .signup "https://o.io?code=rb" "" (some "b@x") "rb" }] ∧
    (dispatched sampleWorld
        (createMicrobe sampleWorld { objectId := 21, slug := "rb" }
          (some { signupBody "ob" "a@x" with code := some "ra" })).1).filter Mail.isSignup = [] :=
  ⟨by
    obtain ⟨body, outbreak, email, hb, ho, he, -, hd, -⟩ :=
      (createMicrobe_signup_mail sampleWorld { objectId := 21, slug := "rb" }
        (some { signupBody "ob" "b@x" with code := some "ra" })).1 _ sampleSignup rfl
    simp only [Option.some.injEq] at hb
    subst hb
    have ho' : outbreak = sampleOutbreak := by
      have : Outbreak.findOne sampleWorld.outbreaks "ob" = some sampleOutbreak := rfl
      exact (Option.some.inj (ho.symm.trans this))
    have he' : email = "b@x" := (Option.some.inj he).symm
    subst ho'; subst he'
    exact hd,
   (createMicrobe_signup_mail sampleWorld { objectId := 21, slug := "rb" }
      (some { signupBody "ob" "a@x" with code := some "ra" })).2 _
      (ctxThrowMsg 422 (duplicateKeyError "email_1_outbreak_id_1").message) rfl⟩

/-! ### The route tables -/

theorem guarded_route_unauthorized (env : Env) (r : Route) (w : World) (ctx : Ctx)
    (hg : guarded r = true) (hrej : authRejects env.verify w ctx) :
    runHandlers env r.handlers w ctx = { world := w, ctx := ctx, error := some unauthorized } ∧
    responseStatus (runHandlers env r.handlers w ctx) = 401 := by
  unfold guarded at hg
  cases hh : r.handlers with
  | nil => simp [hh] at hg
  | cons h hs =>
    have h1 : h = Handler.ensureUser := by simpa [hh] using hg
    subst h1
    have := ensureUser_of_rejects env.verify w ctx hrej (runHandlers env hs)
    simp only [runHandlers, runHandler, this]
    exact ⟨trivial, rfl⟩

/-- C7, evaluated on the code: every outbreak route starts with `ensureUser`,
and so do the microbe list, update and delete routes, but the microbe routes
that do not are create and also get by id, whose only handler is `getMicrobe`:
a request for a stored microbe without any token is answered 200 with the
microbe in the body, where the same request on the outbreaks table is answered
401. -/
theorem microbes_get_by_id_not_guarded :
    outbreaks.routes.all guarded = true ∧
    (microbes.routes.filter (fun r => !guarded r)).map (fun r => (r.method, r.route)) =
      [("POST", "/"), ("GET", "/:id")] ∧
    (findRoute microbes.routes "GET" "/:id").map (fun r => r.handlers) =
      some [Handler.getMicrobe] ∧
    (serve sampleEnv microbes.routes "GET" "/:id" sampleWorld (sampleCtx none)).map
      (fun r => (responseStatus r, r.ctx.body)) = some (200, Body.microbe sampleReferrer) ∧
    (serve sampleEnv outbreaks.routes "GET" "/:id" sampleWorld (sampleCtx none)).map
      responseStatus = some 401 := by
  refine ⟨by decide, by decide, by decide, by decide, by decide⟩

/-! ### Store invariants kept by `createMicrobe` -/

theorem Microbe.push_ids (ms : List Microbe) (i x : ObjectId) :
    (Microbe.push ms i x).map (fun m => m._id) = ms.map (fun m => m._id) := by
  unfold Microbe.push
  rw [List.map_map]
  apply List.map_congr_left
  intro a _
  simp only [Function.comp]
  split <;> rfl

theorem linkReferrer_ids (ms : List Microbe) (o : Outbreak) (m : Microbe) (c : Option String) :
    (linkReferrer ms o m c).1.map (fun y => y._id) = ms.map (fun y => y._id) := by
  rcases linkReferrer_fst ms o m c with h | ⟨i, x, h⟩
  · rw [h]
  · rw [h, Microbe.push_ids]

theorem createMicrobe_nodup_ids (w : World) (gen : Gen) (req : Option MicrobeBody)
    (hnd : (w.microbes.map (fun m => m._id)).Nodup) :
    ((createMicrobe w gen req).1.microbes.map (fun m => m._id)).Nodup := by
  cases req with
  | none => simpa [createMicrobe] using hnd
  | some body =>
    by_cases hid : truthy body.outbreak_id = true
    · cases ho : Outbreak.findOne w.outbreaks (jsString body.outbreak_id) with
      | none => simpa [createMicrobe, hid, ho] using hnd
      | some outbreak =>
        rw [createMicrobe_resolved w gen body outbreak hid ho]
        cases hi : Microbe.insert
            (linkReferrer w.microbes outbreak (buildMicrobe gen body outbreak) body.code).1
            (buildMicrobe gen body outbreak) with
        | error e =>
          simp only []
          rw [linkReferrer_ids]
          exact hnd
        | ok ms =>
          obtain ⟨hms, -, hfresh, -⟩ := Microbe.insert_ok _ _ _ hi
          simp only []
          rw [hms, List.map_append, List.map_cons, List.map_nil, linkReferrer_ids]
          rw [List.nodup_append]
          refine ⟨hnd, List.nodup_singleton _, ?_⟩
          intro a ha hb
          rw [List.mem_singleton] at hb
          rw [← linkReferrer_ids w.microbes outbreak (buildMicrobe gen body outbreak) body.code,
            List.mem_map] at ha
          obtain ⟨y, hy, hya⟩ := ha
          exact hfresh y hy (hya.trans hb)
    · simpa [createMicrobe, hid] using hnd

theorem referrer_microbials_in_order :
    (createAll sampleWorld
      [({ objectId := 21, slug := "rb" }, { signupBody "ob" "b@x" with code := some "ra" }),
       ({ objectId := 22, slug := "rc" }, { signupBody "ob" "c@x" with code := some "ra" }),
       ({ objectId := 23, slug := "rd" }, { signupBody "ob" "d@x" with code := some "ra" })]
      ).microbes.head?.map (fun r => r.microbials) = some [21, 22, 23] := by
  decide

/-! ### The nudge mail -/

theorem sendNudge_fields (o : Outbreak) (r m : Microbe) :
    sendNudge o r m =
      { template := o.nudge_template
        address := r.email
        email_data := .nudge ("undefined?code=" ++ r.referral_code) r.microbials.length
          (r.name.getD "") r.email r.referral_code (m.name.getD "") m.email m.referral_code } := by
  unfold sendNudge
  rw [orEmpty_eq_getD, orEmpty_eq_getD]
  have hlen : (if r.microbials.length ≠ 0 then r.microbials.length else 0)
      = r.microbials.length := by
    split
    · rfl
    · omega
  rw [hlen]
  rfl

/-- C11, evaluated on the code: a signup under the sample outbreak (whose
`referral_url` is `https://o.io`) with the code of the sample referrer
dispatches a nudge with the `nudge_template`, addressed to the referrer, with
the count 1 and the names, emails and codes of both microbes, but its
`referral_link` is `undefined?code=ra`, not the `referral_url` of the outbreak
followed by `?code=ra`: `sendNudge` reads `outbreak.referral_link`, which is not
a path of the outbreak schema, where `sendSignupMail` reads `referral_url`. -/
theorem createMicrobe_nudge_link_undefined :
    (dispatched sampleWorld
        (createMicrobe sampleWorld { objectId := 21, slug := "rb" }
          (some { signupBody "ob" "b@x" with code := some "ra" })).1).filter Mail.isNudge =
      [{ template := some "tpl_n", address := some "a@x",
         email_data := .nudge "undefined?code=ra" 1 "A" (some "a@x") "ra" ""
           (some "b@x") "rb" }] ∧
    sampleOutbreak.referral_url = some "https://o.io" ∧
    "undefined?code=ra" ≠ "https://o.io" ++ "?code=" ++ sampleReferrer.referral_code := by
  refine ⟨by decide, rfl, by decide⟩

/-! ### Reading a record by id -/

theorem catchNotFound_of_notFound (err : JsError)
    (h : err.status = some 404 ∨ err.name = "CastError") :
    catchNotFound err = ctxThrow 404 := by
  unfold catchNotFound
  rw [if_pos h]

theorem catchNotFound_of_other (err : JsError)
    (hs : err.status ≠ some 404) (hn : err.name ≠ "CastError") :
    catchNotFound err = ctxThrow 500 := by
  unfold catchNotFound
  rw [if_neg (by rintro (h | h) <;> contradiction)]

theorem Microbe.findById_unresolved (ms : List Microbe) (id : RawId)
    (h : unresolved (ms.map (fun m => m._id)) id) :
    (∃ text, Microbe.findById ms id = .error (castError text)) ∨
      Microbe.findById ms id = .ok none := by
  cases id with
  | malformed text => exact Or.inl ⟨text, rfl⟩
  | wellFormed i =>
    right
    unfold Microbe.findById
    simp only [Except.ok.injEq]
    rw [List.find?_eq_none]
    intro x hx hxi
    apply h
    rw [List.mem_map]
    exact ⟨x, hx, by simpa using hxi⟩

theorem Outbreak.findById_missing (os : List Outbreak) (id : RawId)
    (h : unresolved (os.map (fun o => o._id)) id) :
    (∃ text, Outbreak.findById os id = .error (castError text)) ∨
      Outbreak.findById os id = .ok none := by
  cases id with
  | malformed text => exact Or.inl ⟨text, rfl⟩
  | wellFormed i =>
    right
    unfold Outbreak.findById
    simp only [Except.ok.injEq]
    rw [List.find?_eq_none]
    intro x hx hxi
    apply h
    rw [List.mem_map]
    exact ⟨x, hx, by simpa using hxi⟩

theorem getMicrobe_unresolved (w : World) (ctx : Ctx) (next : Option Next)
    (h : unresolved (w.microbes.map (fun m => m._id)) ctx.request.id) :
    getMicrobe w ctx next = { world := w, ctx := ctx, error := some (ctxThrow 404) } := by
  unfold getMicrobe getMicrobeWith
  rcases Microbe.findById_unresolved _ _ h with ⟨text, hf⟩ | hf
  · rw [hf]
    simp only []
    rw [catchNotFound_of_notFound _ (Or.inr rfl)]
  · rw [hf]
    simp only []
    rw [catchNotFound_of_notFound _ (Or.inl rfl)]

theorem getOutbreak_unresolved (w : World) (ctx : Ctx) (next : Option Next)
    (h : unresolved (w.outbreaks.map (fun o => o._id)) ctx.request.id) :
    getOutbreak w ctx next = { world := w, ctx := ctx, error := some (ctxThrow 404) } := by
  unfold getOutbreak getOutbreakWith
  rcases Outbreak.findById_missing _ _ h with ⟨text, hf⟩ | hf
  · rw [hf]
    simp only []
    rw [catchNotFound_of_notFound _ (Or.inr rfl)]
  · rw [hf]
    simp only []
    rw [catchNotFound_of_notFound _ (Or.inl rfl)]

theorem ensureUser_passes (verify : String → Option Decoded) (w : World) (ctx : Ctx)
    (decoded : Decoded) (user : User) (next : Next)
    (ht : truthy ctx.request.token = true)
    (hv : verify (jsString ctx.request.token) = some decoded)
    (hf : User.findById w.users decoded.id = .ok (some user)) :
    ensureUser verify w ctx next = next w { ctx with state_user := some user } := by
  unfold ensureUser
  simp [ht, hv, hf]

theorem serve_microbes_put (env : Env) (w : World) (ctx : Ctx) :
    serve env microbes.routes "PUT" "/:id" w ctx =
      some (runHandlers env [.ensureUser, .getMicrobe, .updateMicrobe] w ctx) := rfl

theorem serve_microbes_delete (env : Env) (w : World) (ctx : Ctx) :
    serve env microbes.routes "DELETE" "/:id" w ctx =
      some (runHandlers env [.ensureUser, .getMicrobe, .deleteMicrobe] w ctx) := rfl

theorem serve_outbreaks_put (env : Env) (w : World) (ctx : Ctx) :
    serve env outbreaks.routes "PUT" "/:id" w ctx =
      some (runHandlers env [.ensureUser, .getOutbreak, .updateOutbreak] w ctx) := rfl

theorem serve_outbreaks_delete (env : Env) (w : World) (ctx : Ctx) :
    serve env outbreaks.routes "DELETE" "/:id" w ctx =
      some (runHandlers env [.ensureUser, .getOutbreak, .deleteOutbreak] w ctx) := rfl

/-- C12: `getMicrobe` and `getOutbreak` fail with status 404 when the id of the
url does not cast or casts to an id no stored record has, and more generally
when the query is rejected with a cast error; they fail with status 500 when
the query is rejected with any other error; when the query finds a record they
put it in `ctx.body` and continue with `next`. Hence an update or a delete
request that passes the token check with such an id is answered 404 and leaves
the world as it was. -/
theorem get_by_id_not_found (env : Env) (w : World) (ctx : Ctx) :
    ((unresolved (w.microbes.map (fun m => m._id)) ctx.request.id → ∀ next,
        getMicrobe w ctx next = { world := w, ctx := ctx, error := some (ctxThrow 404) }) ∧
      (∀ err next, err.name = "CastError" →
        getMicrobeWith (.error err) w ctx next =
          { world := w, ctx := ctx, error := some (ctxThrow 404) }) ∧
      (∀ err next, err.status ≠ some 404 → err.name ≠ "CastError" →
        getMicrobeWith (.error err) w ctx next =
          { world := w, ctx := ctx, error := some (ctxThrow 500) }) ∧
      (∀ m next, Microbe.findById w.microbes ctx.request.id = .ok (some m) →
        getMicrobe w ctx (some next) = next w { ctx with body := .microbe m }) ∧
      (∀ decoded user method, method = "PUT" ∨ method = "DELETE" →
        truthy ctx.request.token = true →
        env.verify (jsString ctx.request.token) = some decoded →
        User.findById w.users decoded.id = .ok (some user) →
        unresolved (w.microbes.map (fun m => m._id)) ctx.request.id →
        serve env microbes.routes method "/:id" w ctx =
          some { world := w, ctx := { ctx with state_user := some user },
                 error := some (ctxThrow 404) })) ∧
    ((unresolved (w.outbreaks.map (fun o => o._id)) ctx.request.id → ∀ next,
        getOutbreak w ctx next = { world := w, ctx := ctx, error := some (ctxThrow 404) }) ∧
      (∀ err next, err.name = "CastError" →
        getOutbreakWith (.error err) w ctx next =
          { world := w, ctx := ctx, error := some (ctxThrow 404) }) ∧
      (∀ err next, err.status ≠ some 404 → err.name ≠ "CastError" →
        getOutbreakWith (.error err) w ctx next =
          { world := w, ctx := ctx, error := some (ctxThrow 500) }) ∧
      (∀ o next, Outbreak.findById w.outbreaks ctx.request.id = .ok (some o) →
        getOutbreak w ctx (some next) = next w { ctx with body := .outbreak o }) ∧
      (∀ decoded user method, method = "PUT" ∨ method = "DELETE" →
        truthy ctx.request.token = true →
        env.verify (jsString ctx.request.token) = some decoded →
        User.findById w.users decoded.id = .ok (some user) →
        unresolved (w.outbreaks.map (fun o => o._id)) ctx.request.id →
        serve env outbreaks.routes method "/:id" w ctx =
          some { world := w, ctx := { ctx with state_user := some user },
                 error := some (ctxThrow 404) })) := by
  refine ⟨⟨?_, ?_, ?_, ?_, ?_⟩, ⟨?_, ?_, ?_, ?_, ?_⟩⟩
  · intro h next
    exact getMicrobe_unresolved w ctx next h
  · intro err next hn
    simp only [getMicrobeWith]
    rw [catchNotFound_of_notFound _ (Or.inr hn)]
  · intro err next hs hn
    simp only [getMicrobeWith]
    rw [catchNotFound_of_other _ hs hn]
  · intro m next hf
    simp only [getMicrobe, getMicrobeWith, hf]
  · intro decoded user method hm ht hv hf hu
    have hu' : unresolved (w.microbes.map (fun m => m._id))
        ({ ctx with state_user := some user } : Ctx).request.id := hu
    rcases hm with hm | hm
    · subst hm
      rw [serve_microbes_put]
      simp only [runHandlers, runHandler]
      rw [ensureUser_passes env.verify w ctx decoded user _ ht hv hf]
      simp only [runHandler]
      rw [getMicrobe_unresolved w _ _ hu']
    · subst hm
      rw [serve_microbes_delete]
      simp only [runHandlers, runHandler]
      rw [ensureUser_passes env.verify w ctx decoded user _ ht hv hf]
      simp only [runHandler]
      rw [getMicrobe_unresolved w _ _ hu']
  · intro h next
    exact getOutbreak_unresolved w ctx next h
  · intro err next hn
    simp only [getOutbreakWith]
    rw [catchNotFound_of_notFound _ (Or.inr hn)]
  · intro err next hs hn
    simp only [getOutbreakWith]
    rw [catchNotFound_of_other _ hs hn]
  · intro o next hf
    simp only [getOutbreak, getOutbreakWith, hf]
  · intro decoded user method hm ht hv hf hu
    have hu' : unresolved (w.outbreaks.map (fun o => o._id))
        ({ ctx with state_user := some user } : Ctx).request.id := hu
    rcases hm with hm | hm
    · subst hm
      rw [serve_outbreaks_put]
      simp only [runHandlers, runHandler]
      rw [ensureUser_passes env.verify w ctx decoded user _ ht hv hf]
      simp only [runHandler]
      rw [getOutbreak_unresolved w _ _ hu']
    · subst hm
      rw [serve_outbreaks_delete]
      simp only [runHandlers, runHandler]
      rw [ensureUser_passes env.verify w ctx decoded user _ ht hv hf]
      simp only [runHandler]
      rw [getOutbreak_unresolved w _ _ hu']

theorem get_by_id_not_found_witness :
    getOutbreak sampleWorld
        { sampleCtx (some "good") with request.id := .malformed "1" } none =
      { world := sampleWorld,
        ctx := { sampleCtx (some "good") with request.id := .malformed "1" },
        error := some (ctxThrow 404) } ∧
    (serve sampleEnv outbreaks.routes "PUT" "/:id" sampleWorld
        { sampleCtx (some "good") with request.id := .malformed "1" }).map
      (fun r => (responseStatus r, r.world)) = some (404, sampleWorld) ∧
    (serve sampleEnv microbes.routes "DELETE" "/:id" sampleWorld
        { sampleCtx (some "good") with request.id := .wellFormed 77 }).map
      (fun r => (responseStatus r, r.world)) = some (404, sampleWorld) :=
  ⟨(get_by_id_not_found sampleEnv sampleWorld
      { sampleCtx (some "good") with request.id := .malformed "1" }).2.1 trivial none,
   by
    rw [(get_by_id_not_found sampleEnv sampleWorld
      { sampleCtx (some "good") with request.id := .malformed "1" }).2.2.2.2.2
      { id := .wellFormed 1 } { sampleUser with password := none } "PUT" (Or.inl rfl)
      rfl rfl rfl trivial]
    rfl,
   by
    rw [(get_by_id_not_found sampleEnv sampleWorld
      { sampleCtx (some "good") with request.id := .wellFormed 77 }).1.2.2.2.2
      { id := .wellFormed 1 } { sampleUser with password := none } "DELETE" (Or.inr rfl)
      rfl rfl rfl (by decide)]
    rfl⟩

/-! ### Creating an outbreak -/

theorem Outbreak.new_owner (gen : Gen) (body : Option OutbreakBody) (owner : ObjectId) :
    (Outbreak.new gen body owner).owner = owner := by
  cases body <;> rfl

theorem Outbreak.insert_appends (os os' : List Outbreak) (o : Outbreak)
    (h : Outbreak.insert os o = .ok os') : os' = os ++ [o] ∧ ∀ x ∈ os, x._id ≠ o._id := by
  unfold Outbreak.insert at h
  cases hv : Outbreak.validate o with
  | error e => simp [hv] at h
  | ok u =>
    simp only [hv] at h
    by_cases h1 : (os.any (fun x => decide (x._id = o._id))) = true
    · rw [if_pos h1] at h
      cases h
    · rw [if_neg h1] at h
      refine ⟨by simpa using h.symm, ?_⟩
      intro x hx hxe
      exact h1 (List.any_eq_true.mpr ⟨x, hx, by simpa using hxe⟩)

/-- C14: for every user U put in `ctx.state.user` by the token check and every
request body, an outbreak that `createOutbreak` creates has `owner` equal to the
id of U, whatever `owner` the body submits; it is the outbreak appended to the
store and returned in the response body. -/
theorem createOutbreak_owner (w : World) (gen : Gen) (ctx : Ctx) (U : User)
    (hu : ctx.state_user = some U)
    (hok : (createOutbreak w gen ctx).error = none) :
    ∃ o, (createOutbreak w gen ctx).ctx.body = .outbreak o ∧
      (createOutbreak w gen ctx).world.outbreaks = w.outbreaks ++ [o] ∧
      o.owner = U._id := by
  unfold createOutbreak at hok ⊢
  rw [hu] at hok ⊢
  simp only [] at hok ⊢
  cases hi : Outbreak.insert w.outbreaks (Outbreak.new gen ctx.request.outbreak U._id) with
  | error e => simp [hi] at hok
  | ok os =>
    simp only [hi]
    exact ⟨_, rfl, (Outbreak.insert_appends _ _ _ hi).1, Outbreak.new_owner _ _ _⟩

theorem createOutbreak_owner_witness :
    ∃ o, (createOutbreak sampleWorld { objectId := 11, slug := "oc" }
        { sampleCtx (some "good") with
          state_user := some sampleUser
          request.outbreak := some { noOutbreakPatch with
            name := some "Mine", owner := some (.wellFormed 99) } }).ctx.body = .outbreak o ∧
      (createOutbreak sampleWorld { objectId := 11, slug := "oc" }
        { sampleCtx (some "good") with
          state_user := some sampleUser
          request.outbreak := some { noOutbreakPatch with
            name := some "Mine", owner := some (.wellFormed 99) } }).world.outbreaks
        = sampleWorld.outbreaks ++ [o] ∧
      o.owner = sampleUser._id :=
  createOutbreak_owner sampleWorld { objectId := 11, slug := "oc" }
    { sampleCtx (some "good") with
      state_user := some sampleUser
      request.outbreak := some { noOutbreakPatch with
        name := some "Mine", owner := some (.wellFormed 99) } }
    sampleUser rfl rfl

/-! ### Updating a record -/

theorem mergedOpt_orElse {α : Type} (patch old : Option α) :
    mergedOpt patch old (patch.orElse (fun _ => old)) := by
  cases patch <;> simp [mergedOpt, Option.orElse]

theorem merged_getD {α : Type} (patch : Option α) (old : α) :
    merged patch old (patch.getD old) := by
  cases patch <;> simp [merged]

theorem getD_drop {α : Type} [DecidableEq α] (patch : Option α) (old : α) :
    (if patch = some old then none else patch).getD old = patch.getD old := by
  split
  · rename_i h
    rw [h]
    rfl
  · rfl

theorem orElse_drop {α : Type} [DecidableEq α] (patch old : Option α) :
    (if patch = old then none else patch).orElse (fun _ => old) =
      patch.orElse (fun _ => old) := by
  split
  · rename_i h
    rw [h]
    cases old <;> rfl
  · rfl

theorem map_at_key {α : Type} (key : α → ObjectId) (f : α → α) (l : List α) (a : α)
    (ha : a ∈ l) (hnd : (l.map key).Nodup) :
    ∃ l1 l2, l = l1 ++ a :: l2 ∧
      l.map (fun x => if key x = key a then f x else x) = l1 ++ f a :: l2 := by
  obtain ⟨l1, l2, hl⟩ := List.append_of_mem ha
  refine ⟨l1, l2, hl, ?_⟩
  subst hl
  rw [List.map_append, List.map_cons] at hnd
  have hnd' := List.nodup_middle.1 hnd
  rw [List.nodup_cons] at hnd'
  have hnot : ∀ y ∈ l1 ++ l2, key y ≠ key a := by
    intro y hy hya
    apply hnd'.1
    rw [← List.map_append, List.mem_map]
    exact ⟨y, hy, hya⟩
  have hid : ∀ t : List α, (∀ y ∈ t, key y ≠ key a) →
      t.map (fun x => if key x = key a then f x else x) = t := by
    intro t ht
    induction t with
    | nil => rfl
    | cons b t iht =>
      have hb : key b ≠ key a := ht b (List.mem_cons_self _ _)
      rw [List.map_cons, if_neg hb, iht (fun y hy => ht y (List.mem_cons_of_mem _ hy))]
  rw [List.map_append, List.map_cons,
    hid l1 (fun y hy => hnot y (List.mem_append_left _ hy)),
    hid l2 (fun y hy => hnot y (List.mem_append_right _ hy))]
  simp

theorem Outbreak.assign_fields (o : Outbreak) (p : OutbreakBody) :
    (Outbreak.assign o p)._id = p._id.getD o._id ∧
    (∀ v, p.owner = some (.wellFormed v) → (Outbreak.assign o p).owner = v) ∧
    (p.owner = none → (Outbreak.assign o p).owner = o.owner) ∧
    mergedOpt p.name o.name (Outbreak.assign o p).name ∧
    mergedOpt p.referral_url o.referral_url (Outbreak.assign o p).referral_url ∧
    merged p.outbreak_id o.outbreak_id (Outbreak.assign o p).outbreak_id ∧
    mergedOpt p.signup_template o.signup_template (Outbreak.assign o p).signup_template ∧
    mergedOpt p.nudge_template o.nudge_template (Outbreak.assign o p).nudge_template ∧
    mergedOpt p.completion_template o.completion_template
      (Outbreak.assign o p).completion_template ∧
    merged p.number_of_nudges o.number_of_nudges (Outbreak.assign o p).number_of_nudges := by
  refine ⟨rfl, ?_, ?_, mergedOpt_orElse _ _, mergedOpt_orElse _ _, merged_getD _ _,
    mergedOpt_orElse _ _, mergedOpt_orElse _ _, mergedOpt_orElse _ _, merged_getD _ _⟩
  · intro v hv
    simp [Outbreak.assign, hv]
  · intro hn
    simp [Outbreak.assign, hn]

theorem Microbe.assign_merges (m : Microbe) (p : MicrobePatch) :
    (Microbe.assign m p)._id = p._id.getD m._id ∧
    (∀ v, p.outbreak_id = some (.wellFormed v) → (Microbe.assign m p).outbreak_id = v) ∧
    (p.outbreak_id = none → (Microbe.assign m p).outbreak_id = m.outbreak_id) ∧
    mergedOpt p.outbreak_slug m.outbreak_slug (Microbe.assign m p).outbreak_slug ∧
    mergedOpt p.name m.name (Microbe.assign m p).name ∧
    mergedOpt p.email m.email (Microbe.assign m p).email ∧
    mergedOpt p.mobile m.mobile (Microbe.assign m p).mobile ∧
    mergedOpt p.id_number m.id_number (Microbe.assign m p).id_number ∧
    merged p.referral_code m.referral_code (Microbe.assign m p).referral_code ∧
    merged p.microbials m.microbials (Microbe.assign m p).microbials := by
  refine ⟨rfl, ?_, ?_, mergedOpt_orElse _ _, mergedOpt_orElse _ _, mergedOpt_orElse _ _,
    mergedOpt_orElse _ _, mergedOpt_orElse _ _, merged_getD _ _, merged_getD _ _⟩
  · intro v hv
    simp [Microbe.assign, hv]
  · intro hn
    simp [Microbe.assign, hn]

theorem Outbreak.assign_unmodified (o : Outbreak) (p : OutbreakBody) :
    Outbreak.assign o (Outbreak.modified o p) = Outbreak.assign o p := by
  have howner : (match (if p.owner = some (.wellFormed o.owner) then none else p.owner) with
      | some (.wellFormed oid) => oid
      | _ => o.owner) =
      (match p.owner with
      | some (.wellFormed oid) => oid
      | _ => o.owner) := by
    split_ifs with h
    · rw [h]
    · rfl
  simp only [Outbreak.assign, Outbreak.modified, getD_drop, orElse_drop, howner]

theorem Microbe.assign_modified (m : Microbe) (p : MicrobePatch) :
    Microbe.assign m (Microbe.modified m p) = Microbe.assign m p := by
  have hob : (match (if p.outbreak_id = some (.wellFormed m.outbreak_id) then none
        else p.outbreak_id) with
      | some (.wellFormed oid) => oid
      | _ => m.outbreak_id) =
      (match p.outbreak_id with
      | some (.wellFormed oid) => oid
      | _ => m.outbreak_id) := by
    split_ifs with h
    · rw [h]
    · rfl
  simp only [Microbe.assign, Microbe.modified, getD_drop, orElse_drop, hob]

theorem Outbreak.assign_keeps_id (o x : Outbreak) (p : OutbreakBody)
    (hx : x._id = (Outbreak.assign o p)._id) :
    (Outbreak.assign x (Outbreak.modified o p))._id = x._id := by
  simp only [Outbreak.assign, Outbreak.modified] at hx ⊢
  split_ifs with h
  · rfl
  · cases hp : p._id with
    | none => rfl
    | some j =>
      rw [hp] at hx
      simp only [Option.getD_some] at hx ⊢
      exact hx.symm

theorem Microbe.assign_modified_id (m x : Microbe) (p : MicrobePatch)
    (hx : x._id = (Microbe.assign m p)._id) :
    (Microbe.assign x (Microbe.modified m p))._id = x._id := by
  simp only [Microbe.assign, Microbe.modified] at hx ⊢
  split_ifs with h
  · rfl
  · cases hp : p._id with
    | none => rfl
    | some j =>
      rw [hp] at hx
      simp only [Option.getD_some] at hx ⊢
      exact hx.symm

theorem Outbreak.update_written (os os' : List Outbreak) (o : Outbreak) (p : OutbreakBody)
    (h : Outbreak.update os o p = .ok os') :
    os' = os.map (fun x =>
      if x._id = (Outbreak.assign o p)._id then Outbreak.assign x (Outbreak.modified o p)
      else x) := by
  unfold Outbreak.update at h
  simp only [] at h
  split at h
  · cases h
  · cases hv : Outbreak.validate (Outbreak.assign o p) with
    | error e => simp [hv] at h
    | ok u =>
      simp only [hv, Except.ok.injEq] at h
      exact h.symm

theorem Microbe.update_ok (ms ms' : List Microbe) (m : Microbe) (p : MicrobePatch)
    (h : Microbe.update ms m p = .ok ms') :
    ms' = ms.map (fun x =>
      if x._id = (Microbe.assign m p)._id then Microbe.assign x (Microbe.modified m p)
      else x) := by
  unfold Microbe.update at h
  simp only [] at h
  split at h
  · cases h
  · cases hv : Microbe.validate (Microbe.assign m p) with
    | error e => simp [hv] at h
    | ok u =>
      simp only [hv] at h
      split at h
      · cases h
      · simp only [Except.ok.injEq] at h
        exact h.symm

theorem updateOutbreak_result (w : World) (ctx : Ctx) (o : Outbreak) (p : OutbreakBody)
    (hb : ctx.body = .outbreak o) (hp : ctx.request.outbreak = some p) :
    (updateOutbreak w ctx).ctx.body = .outbreak (Outbreak.assign o p) ∧
    (((updateOutbreak w ctx).error ≠ none ∧ (updateOutbreak w ctx).world = w) ∨
     ((updateOutbreak w ctx).error = none ∧
      (updateOutbreak w ctx).world =
        { w with outbreaks := w.outbreaks.map (fun x =>
            if x._id = (Outbreak.assign o p)._id then Outbreak.assign x (Outbreak.modified o p)
            else x) })) := by
  unfold updateOutbreak
  rw [hb, hp]
  simp only [Option.getD_some]
  cases hu : Outbreak.update w.outbreaks o p with
  | error e => exact ⟨rfl, Or.inl ⟨by simp, rfl⟩⟩
  | ok os =>
    refine ⟨rfl, Or.inr ⟨rfl, ?_⟩⟩
    simp only []
    rw [Outbreak.update_written _ _ _ _ hu]

theorem updateMicrobe_result (w : World) (ctx : Ctx) (m : Microbe) (p : MicrobePatch)
    (hb : ctx.body = .microbe m) (hp : ctx.request.microbe_patch = some p) :
    (updateMicrobe w ctx).ctx.body = .microbe (Microbe.assign m p) ∧
    (((updateMicrobe w ctx).error ≠ none ∧ (updateMicrobe w ctx).world = w) ∨
     ((updateMicrobe w ctx).error = none ∧
      (updateMicrobe w ctx).world =
        { w with microbes := w.microbes.map (fun x =>
            if x._id = (Microbe.assign m p)._id then Microbe.assign x (Microbe.modified m p)
            else x) })) := by
  unfold updateMicrobe
  rw [hb, hp]
  simp only [Option.getD_some]
  cases hu : Microbe.update w.microbes m p with
  | error e => exact ⟨rfl, Or.inl ⟨by simp, rfl⟩⟩
  | ok ms =>
    refine ⟨rfl, Or.inr ⟨rfl, ?_⟩⟩
    simp only []
    rw [Microbe.update_ok _ _ _ _ hu]

theorem other_id_keeps_record {α : Type} (key : α → ObjectId) (f : α → α) (l : List α)
    (a : α) (j : ObjectId) (ha : a ∈ l) (hnd : (l.map key).Nodup) (hj : j ≠ key a)
    (hf : ∀ x, key x = j → key (f x) = j) :
    a ∈ l.map (fun x => if key x = j then f x else x) ∧
    ∀ y ∈ l.map (fun x => if key x = j then f x else x), key y = key a → y = a := by
  constructor
  · rw [List.mem_map]
    exact ⟨a, ha, by rw [if_neg (fun h => hj h.symm)]⟩
  · intro y hy hya
    rw [List.mem_map] at hy
    obtain ⟨x, hx, hxy⟩ := hy
    by_cases hxj : key x = j
    · rw [if_pos hxj] at hxy
      exfalso
      apply hj
      rw [← hya, ← hxy]
      exact (hf x hxj).symm
    · rw [if_neg hxj] at hxy
      subst hxy
      exact List.inj_on_of_nodup_map hnd hx ha hya

/-- C13, refuted as stated: an update request on the sample outbreak with a
valid token and a patch naming `name` and another `_id` is answered 200 and
leaves the stored outbreak with its previous name; a patch that empties the
required `name` is answered 500 and leaves it unchanged too. -/
theorem update_patch_not_always_merged :
    sampleWorld.outbreaks.map (fun o => (o._id, o.name)) = [(10, some "Test outbreak")] ∧
    (serve sampleEnv outbreaks.routes "PUT" "/:id" sampleWorld
        (samplePut { noOutbreakPatch with _id := some 11, name := some "Renamed" })).map
      (fun r => (responseStatus r, r.world.outbreaks.map (fun o => (o._id, o.name))))
      = some (200, [(10, some "Test outbreak")]) ∧
    (serve sampleEnv outbreaks.routes "PUT" "/:id" sampleWorld
        (samplePut { noOutbreakPatch with name := some "" })).map
      (fun r => (responseStatus r, r.world.outbreaks.map (fun o => (o._id, o.name))))
      = some (500, [(10, some "Test outbreak")]) := by
  refine ⟨by decide, by decide, by decide⟩

/-- C13, amended: for a stored outbreak (respectively microbe) fetched into
`ctx.body`, in a store with distinct ids, and any patch: when `updateOutbreak`
(respectively `updateMicrobe`) succeeds and the patch names no `_id` other than
that of the record, the record returned is written to the store in place of
the stored one, with the same `_id`, every field named in the patch holding the
value of the patch and every field not named keeping its previous value; when
the update fails the world is unchanged; and when the patch names another
`_id` the stored record is left as it was. -/
theorem update_merges_patch (w : World) (ctx : Ctx) :
    (∀ o p, ctx.body = .outbreak o → ctx.request.outbreak = some p →
      o ∈ w.outbreaks → (w.outbreaks.map (fun x => x._id)).Nodup →
      ((updateOutbreak w ctx).error = none → (p._id = none ∨ p._id = some o._id) →
        ∃ o' l1 l2, w.outbreaks = l1 ++ o :: l2 ∧
          (updateOutbreak w ctx).world.outbreaks = l1 ++ o' :: l2 ∧
          (updateOutbreak w ctx).ctx.body = .outbreak o' ∧
          o'._id = o._id ∧
          (∀ v, p.owner = some (.wellFormed v) → o'.owner = v) ∧
          (p.owner = none → o'.owner = o.owner) ∧
          mergedOpt p.name o.name o'.name ∧
          mergedOpt p.referral_url o.referral_url o'.referral_url ∧
          merged p.outbreak_id o.outbreak_id o'.outbreak_id ∧
          mergedOpt p.signup_template o.signup_template o'.signup_template ∧
          mergedOpt p.nudge_template o.nudge_template o'.nudge_template ∧
          mergedOpt p.completion_template o.completion_template o'.completion_template ∧
          merged p.number_of_nudges o.number_of_nudges o'.number_of_nudges) ∧
      ((updateOutbreak w ctx).error ≠ none → (updateOutbreak w ctx).world = w) ∧
      (∀ j, p._id = some j → j ≠ o._id →
        o ∈ (updateOutbreak w ctx).world.outbreaks ∧
        ∀ x ∈ (updateOutbreak w ctx).world.outbreaks, x._id = o._id → x = o)) ∧
    (∀ m p, ctx.body = .microbe m → ctx.request.microbe_patch = some p →
      m ∈ w.microbes → (w.microbes.map (fun x => x._id)).Nodup →
      ((updateMicrobe w ctx).error = none → (p._id = none ∨ p._id = some m._id) →
        ∃ m' l1 l2, w.microbes = l1 ++ m :: l2 ∧
          (updateMicrobe w ctx).world.microbes = l1 ++ m' :: l2 ∧
          (updateMicrobe w ctx).ctx.body = .microbe m' ∧
          m'._id = m._id ∧
          (∀ v, p.outbreak_id = some (.wellFormed v) → m'.outbreak_id = v) ∧
          (p.outbreak_id = none → m'.outbreak_id = m.outbreak_id) ∧
          mergedOpt p.outbreak_slug m.outbreak_slug m'.outbreak_slug ∧
          mergedOpt p.name m.name m'.name ∧
          mergedOpt p.email m.email m'.email ∧
          mergedOpt p.mobile m.mobile m'.mobile ∧
          mergedOpt p.id_number m.id_number m'.id_number ∧
          merged p.referral_code m.referral_code m'.referral_code ∧
          merged p.microbials m.microbials m'.microbials) ∧
      ((updateMicrobe w ctx).error ≠ none → (updateMicrobe w ctx).world = w) ∧
      (∀ j, p._id = some j → j ≠ m._id →
        m ∈ (updateMicrobe w ctx).world.microbes ∧
        ∀ x ∈ (updateMicrobe w ctx).world.microbes, x._id = m._id → x = m)) := by
  constructor
  · intro o p hb hp ho hnd
    obtain ⟨hbody, hres⟩ := updateOutbreak_result w ctx o p hb hp
    refine ⟨?_, ?_, ?_⟩
    · intro hok hid
      rcases hres with ⟨hne, -⟩ | ⟨-, hw⟩
      · exact absurd hok hne
      · have hsame : (Outbreak.assign o p)._id = o._id := by
          rcases hid with h | h <;> simp [Outbreak.assign, h]
        obtain ⟨l1, l2, hl, hmap⟩ := map_at_key (fun x : Outbreak => x._id)
          (fun x => Outbreak.assign x (Outbreak.modified o p)) w.outbreaks o ho hnd
        simp only [Outbreak.assign_unmodified] at hmap
        obtain ⟨-, hf⟩ := Outbreak.assign_fields o p
        refine ⟨Outbreak.assign o p, l1, l2, hl, ?_, hbody, hsame, hf⟩
        rw [hw, hsame]
        exact hmap
    · intro hne
      rcases hres with ⟨-, hw⟩ | ⟨hok, -⟩
      · exact hw
      · exact absurd hok hne
    · intro j hj hjo
      rcases hres with ⟨-, hw⟩ | ⟨-, hw⟩
      · rw [hw]
        exact ⟨ho, fun x hx hxo => List.inj_on_of_nodup_map hnd hx ho hxo⟩
      · have htarget : (Outbreak.assign o p)._id = j := by simp [Outbreak.assign, hj]
        rw [hw, htarget]
        apply other_id_keeps_record (fun x : Outbreak => x._id) _ w.outbreaks o j ho hnd hjo
        intro x hx
        rw [Outbreak.assign_keeps_id o x p (hx.trans htarget.symm)]
        exact hx
  · intro m p hb hp hm hnd
    obtain ⟨hbody, hres⟩ := updateMicrobe_result w ctx m p hb hp
    refine ⟨?_, ?_, ?_⟩
    · intro hok hid
      rcases hres with ⟨hne, -⟩ | ⟨-, hw⟩
      · exact absurd hok hne
      · have hsame : (Microbe.assign m p)._id = m._id := by
          rcases hid with h | h <;> simp [Microbe.assign, h]
        obtain ⟨l1, l2, hl, hmap⟩ := map_at_key (fun x : Microbe => x._id)
          (fun x => Microbe.assign x (Microbe.modified m p)) w.microbes m hm hnd
        simp only [Microbe.assign_modified] at hmap
        obtain ⟨-, hf⟩ := Microbe.assign_merges m p
        refine ⟨Microbe.assign m p, l1, l2, hl, ?_, hbody, hsame, hf⟩
        rw [hw, hsame]
        exact hmap
    · intro hne
      rcases hres with ⟨-, hw⟩ | ⟨hok, -⟩
      · exact hw
      · exact absurd hok hne
    · intro j hj hjo
      rcases hres with ⟨-, hw⟩ | ⟨-, hw⟩
      · rw [hw]
        exact ⟨hm, fun x hx hxo => List.inj_on_of_nodup_map hnd hx hm hxo⟩
      · have htarget : (Microbe.assign m p)._id = j := by simp [Microbe.assign, hj]
        rw [hw, htarget]
        apply other_id_keeps_record (fun x : Microbe => x._id) _ w.microbes m j hm hnd hjo
        intro x hx
        rw [Microbe.assign_modified_id m x p (hx.trans htarget.symm)]
        exact hx

theorem update_merges_patch_witness :
    (∃ o' l1 l2, sampleWorld.outbreaks = l1 ++ sampleOutbreak :: l2 ∧
      (updateOutbreak sampleWorld sampleRename).world.outbreaks = l1 ++ o' :: l2 ∧
      (updateOutbreak sampleWorld sampleRename).ctx.body = .outbreak o' ∧
      o'.name = some "Cool Outbreak" ∧ o'.outbreak_id = sampleOutbreak.outbreak_id ∧
      o'.owner = sampleOutbreak.owner) ∧
    (∃ m' l1 l2, sampleWorld.microbes = l1 ++ sampleReferrer :: l2 ∧
      (updateMicrobe sampleWorld sampleMicrobeRename).world.microbes = l1 ++ m' :: l2 ∧
      (updateMicrobe sampleWorld sampleMicrobeRename).ctx.body = .microbe m' ∧
      m'.name = some "Ann" ∧ m'.email = sampleReferrer.email ∧
      m'.microbials = sampleReferrer.microbials) := by
  constructor
  · obtain ⟨o', l1, l2, hl, hw, hb, -, -, ho, hn, -, hi, -⟩ :=
      ((update_merges_patch sampleWorld sampleRename).1 sampleOutbreak
        { noOutbreakPatch with name := some "Cool Outbreak" } rfl rfl (by decide)
        (by decide)).1 rfl (Or.inl rfl)
    exact ⟨o', l1, l2, hl, hw, hb, hn, hi, ho rfl⟩
  · obtain ⟨m', l1, l2, hl, hw, hb, -, -, -, -, hn, he, -, -, -, hmic⟩ :=
      ((update_merges_patch sampleWorld sampleMicrobeRename).2 sampleReferrer
        { noMicrobePatch with name := some "Ann" } rfl rfl (by decide)
        (by decide)).1 rfl (Or.inl rfl)
    exact ⟨m', l1, l2, hl, hw, hb, hn, he, hmic⟩

/-! ### Sequences of operations: what each operation touches -/

theorem createMicrobe_outbreaks (w : World) (gen : Gen) (req : Option MicrobeBody) :
    (createMicrobe w gen req).1.outbreaks = w.outbreaks := by
  cases req with
  | none => rfl
  | some body =>
    by_cases hid : truthy body.outbreak_id = true
    · cases ho : Outbreak.findOne w.outbreaks (jsString body.outbreak_id) with
      | none => simp [createMicrobe, hid, ho]
      | some outbreak =>
        rw [createMicrobe_resolved w gen body outbreak hid ho]
        cases Microbe.insert
            (linkReferrer w.microbes outbreak (buildMicrobe gen body outbreak) body.code).1
            (buildMicrobe gen body outbreak) <;> rfl
    · simp [createMicrobe, hid]

theorem Outbreak.findById_found (os : List Outbreak) (id : RawId) (o : Outbreak)
    (h : Outbreak.findById os id = .ok (some o)) : o ∈ os ∧ id = .wellFormed o._id := by
  cases id with
  | malformed text => simp [Outbreak.findById] at h
  | wellFormed i =>
    simp only [Outbreak.findById, Except.ok.injEq] at h
    refine ⟨List.mem_of_find?_eq_some h, ?_⟩
    have := List.find?_some h
    simp only [decide_eq_true_eq] at this
    rw [this]

theorem Microbe.findById_some (ms : List Microbe) (id : RawId) (m : Microbe)
    (h : Microbe.findById ms id = .ok (some m)) : m ∈ ms ∧ id = .wellFormed m._id := by
  cases id with
  | malformed text => simp [Microbe.findById] at h
  | wellFormed i =>
    simp only [Microbe.findById, Except.ok.injEq] at h
    refine ⟨List.mem_of_find?_eq_some h, ?_⟩
    have := List.find?_some h
    simp only [decide_eq_true_eq] at this
    rw [this]

theorem getOutbreak_cases (w : World) (ctx : Ctx) (next : Next) :
    (getOutbreak w ctx (some next)).world = w ∨
    ∃ o, o ∈ w.outbreaks ∧
      getOutbreak w ctx (some next) = next w { ctx with body := .outbreak o } := by
  unfold getOutbreak getOutbreakWith
  cases hf : Outbreak.findById w.outbreaks ctx.request.id with
  | error e => exact Or.inl rfl
  | ok found =>
    cases found with
    | none => exact Or.inl rfl
    | some o => exact Or.inr ⟨o, (Outbreak.findById_found _ _ _ hf).1, rfl⟩

theorem getMicrobe_cases (w : World) (ctx : Ctx) (next : Next) :
    (getMicrobe w ctx (some next)).world = w ∨
    ∃ m, m ∈ w.microbes ∧
      getMicrobe w ctx (some next) = next w { ctx with body := .microbe m } := by
  unfold getMicrobe getMicrobeWith
  cases hf : Microbe.findById w.microbes ctx.request.id with
  | error e => exact Or.inl rfl
  | ok found =>
    cases found with
    | none => exact Or.inl rfl
    | some m => exact Or.inr ⟨m, (Microbe.findById_some _ _ _ hf).1, rfl⟩

theorem runOp_updateOutbreak (w : World) (id : RawId) (p : OutbreakBody) :
    runOp w (.updateOutbreak id p) = w ∨
    ∃ o, o ∈ w.outbreaks ∧
      runOp w (.updateOutbreak id p) =
        { w with outbreaks := w.outbreaks.map (fun x =>
            if x._id = (Outbreak.assign o p)._id then Outbreak.assign x (Outbreak.modified o p)
            else x) } := by
  unfold runOp
  rcases getOutbreak_cases w (requestCtx id none (some p)) updateOutbreak with h | ⟨o, ho, h⟩
  · exact Or.inl h
  · simp only [h]
    rcases (updateOutbreak_result w { requestCtx id none (some p) with body := .outbreak o } o p
      rfl rfl).2 with ⟨-, hw⟩ | ⟨-, hw⟩
    · exact Or.inl hw
    · exact Or.inr ⟨o, ho, hw⟩

theorem runOp_updateMicrobe (w : World) (id : RawId) (p : MicrobePatch) :
    runOp w (.updateMicrobe id p) = w ∨
    ∃ m, m ∈ w.microbes ∧
      runOp w (.updateMicrobe id p) =
        { w with microbes := w.microbes.map (fun x =>
            if x._id = (Microbe.assign m p)._id then Microbe.assign x (Microbe.modified m p)
            else x) } := by
  unfold runOp
  rcases getMicrobe_cases w (requestCtx id (some p) none) updateMicrobe with h | ⟨m, hm, h⟩
  · exact Or.inl h
  · simp only [h]
    rcases (updateMicrobe_result w { requestCtx id (some p) none with body := .microbe m } m p
      rfl rfl).2 with ⟨-, hw⟩ | ⟨-, hw⟩
    · exact Or.inl hw
    · exact Or.inr ⟨m, hm, hw⟩

theorem runOp_deleteMicrobe (w : World) (id : RawId) :
    runOp w (.deleteMicrobe id) = w ∨
    ∃ m, m ∈ w.microbes ∧
      runOp w (.deleteMicrobe id) =
        { w with microbes := w.microbes.filter (fun x => x._id ≠ m._id) } := by
  unfold runOp
  rcases getMicrobe_cases w (requestCtx id none none) deleteMicrobe with h | ⟨m, hm, h⟩
  · exact Or.inl h
  · simp only [h]
    exact Or.inr ⟨m, hm, rfl⟩

/-! ### The owner of an outbreak -/

theorem Outbreak.assign_keeps_owner (o x : Outbreak) (p : OutbreakBody) (hp : p.owner = none) :
    (Outbreak.assign x (Outbreak.modified o p)).owner = x.owner := by
  simp [Outbreak.assign, Outbreak.modified, hp]

theorem runOp_owner (w : World) (op : Op) (i v : ObjectId)
    (hl : op.leavesOwner = true)
    (h0 : ∀ x ∈ w.outbreaks, x._id = i → x.owner = v) :
    (∀ x ∈ (runOp w op).outbreaks, x._id = i → x.owner = v) ∧
    (runOp w op).outbreaks.map (fun o => o._id) = w.outbreaks.map (fun o => o._id) := by
  cases op with
  | createMicrobe gen body =>
    have : (runOp w (.createMicrobe gen body)).outbreaks = w.outbreaks :=
      createMicrobe_outbreaks w gen (some body)
    rw [this]
    exact ⟨h0, rfl⟩
  | updateMicrobe id p =>
    rcases runOp_updateMicrobe w id p with h | ⟨m, -, h⟩
    · rw [h]; exact ⟨h0, rfl⟩
    · rw [h]; exact ⟨h0, rfl⟩
  | deleteMicrobe id =>
    rcases runOp_deleteMicrobe w id with h | ⟨m, -, h⟩
    · rw [h]; exact ⟨h0, rfl⟩
    · rw [h]; exact ⟨h0, rfl⟩
  | updateOutbreak id p =>
    rcases runOp_updateOutbreak w id p with h | ⟨o, -, h⟩
    · rw [h]; exact ⟨h0, rfl⟩
    · have hpo : p.owner = none := by
        simpa [Op.leavesOwner] using hl
      rw [h]
      constructor
      · intro x hx hxi
        simp only [List.mem_map] at hx
        obtain ⟨y, hy, hyx⟩ := hx
        by_cases hyo : y._id = (Outbreak.assign o p)._id
        · rw [if_pos hyo] at hyx
          subst hyx
          rw [Outbreak.assign_keeps_owner o y p hpo]
          rw [Outbreak.assign_keeps_id o y p hyo] at hxi
          exact h0 y hy hxi
        · rw [if_neg hyo] at hyx
          subst hyx
          exact h0 y hy hxi
      · simp only [List.map_map]
        apply List.map_congr_left
        intro y _
        simp only [Function.comp]
        split
        · rename_i hyo
          exact Outbreak.assign_keeps_id o y p hyo
        · rfl

/-- C15, refuted as stated: an update request on the sample outbreak (owner 1)
with a valid token and a patch that names `owner` is answered 200 and leaves
the outbreak with the owner of the patch. -/
theorem updateOutbreak_changes_owner :
    sampleWorld.outbreaks.map (fun o => (o._id, o.owner)) = [(10, 1)] ∧
    (serve sampleEnv outbreaks.routes "PUT" "/:id" sampleWorld
        { request := { token := some "good", id := .wellFormed 10, microbe := none,
                       microbe_patch := none,
                       outbreak := some { noOutbreakPatch with owner := some (.wellFormed 99) } },
          state_user := none, body := .empty, status := none }).map
      (fun r => (responseStatus r, r.world.outbreaks.map (fun o => (o._id, o.owner))))
      = some (200, [(10, 99)]) := by
  refine ⟨by decide, by decide⟩

/-- C15, amended: along every sequence of operations made of `createMicrobe`,
`updateMicrobe`, `deleteMicrobe` and `updateOutbreak` calls whose patch does not
name `owner`, the stored outbreaks keep their ids and every stored outbreak
keeps the owner it had. -/
theorem owner_kept_without_owner_patch (ops : List Op) (w : World) (i v : ObjectId)
    (h0 : ∀ x ∈ w.outbreaks, x._id = i → x.owner = v)
    (hops : ∀ op ∈ ops, op.leavesOwner = true) :
    (∀ x ∈ (runOps w ops).outbreaks, x._id = i → x.owner = v) ∧
    (runOps w ops).outbreaks.map (fun o => o._id) = w.outbreaks.map (fun o => o._id) := by
  induction ops generalizing w with
  | nil => exact ⟨h0, rfl⟩
  | cons op rest ih =>
    obtain ⟨h1, hids⟩ := runOp_owner w op i v (hops op (List.mem_cons_self _ _)) h0
    obtain ⟨h2, hids2⟩ := ih (runOp w op) h1 (fun x hx => hops x (List.mem_cons_of_mem _ hx))
    exact ⟨h2, hids2.trans hids⟩

theorem owner_kept_without_owner_patch_witness :
    (∀ x ∈ (runOps sampleWorld
        [.updateOutbreak (.wellFormed 10) { noOutbreakPatch with name := some "Cool Outbreak" },
         .createMicrobe { objectId := 21, slug := "rb" }
           { signupBody "ob" "b@x" with code := some "ra" },
         .updateMicrobe (.wellFormed 21) { noMicrobePatch with name := some "B" },
         .deleteMicrobe (.wellFormed 20)]).outbreaks, x._id = 10 → x.owner = 1) ∧
    (runOps sampleWorld
        [.updateOutbreak (.wellFormed 10) { noOutbreakPatch with name := some "Cool Outbreak" },
         .createMicrobe { objectId := 21, slug := "rb" }
           { signupBody "ob" "b@x" with code := some "ra" },
         .updateMicrobe (.wellFormed 21) { noMicrobePatch with name := some "B" },
         .deleteMicrobe (.wellFormed 20)]).outbreaks.map (fun o => o._id)
      = sampleWorld.outbreaks.map (fun o => o._id) :=
  owner_kept_without_owner_patch
    [.updateOutbreak (.wellFormed 10) { noOutbreakPatch with name := some "Cool Outbreak" },
     .createMicrobe { objectId := 21, slug := "rb" }
       { signupBody "ob" "b@x" with code := some "ra" },
     .updateMicrobe (.wellFormed 21) { noMicrobePatch with name := some "B" },
     .deleteMicrobe (.wellFormed 20)]
    sampleWorld 10 1 (by decide) (by decide)

/-! ### Links: the invariant of the plain operations -/

theorem links_push (ms : List Microbe) (i x : ObjectId) :
    links (Microbe.push ms i x) = pushLink (links ms) i x := by
  unfold links Microbe.push pushLink
  rw [List.map_map, List.map_map]
  apply List.map_congr_left
  intro a _
  simp only [Function.comp]
  split <;> rfl

theorem links_append (ms : List Microbe) (m : Microbe) :
    links (ms ++ [m]) = links ms ++ [(m._id, m.microbials)] := by
  simp [links]

theorem links_ids (ms : List Microbe) :
    (links ms).map Prod.fst = ms.map (fun m => m._id) := by
  simp [links]

theorem mem_allRefs (ks : Links) (x : ObjectId) :
    x ∈ allRefs ks ↔ ∃ k ∈ ks, x ∈ k.2 := by
  induction ks with
  | nil => simp [allRefs]
  | cons a l ih =>
    simp only [allRefs, List.mem_append, ih, List.mem_cons]
    constructor
    · rintro (h | ⟨k, hk, hx⟩)
      · exact ⟨a, Or.inl rfl, h⟩
      · exact ⟨k, Or.inr hk, hx⟩
    · rintro ⟨k, hk | hk, hx⟩
      · left; rw [← hk]; exact hx
      · exact Or.inr ⟨k, hk, hx⟩

theorem pushLink_ids (ks : Links) (i x : ObjectId) :
    (pushLink ks i x).map Prod.fst = ks.map Prod.fst := by
  unfold pushLink
  rw [List.map_map]
  apply List.map_congr_left
  intro a _
  simp only [Function.comp]
  split <;> rfl

theorem pushLink_of_not_mem (ks : Links) (i x : ObjectId) (h : i ∉ ks.map Prod.fst) :
    pushLink ks i x = ks := by
  unfold pushLink
  conv_rhs => rw [← List.map_id ks]
  apply List.map_congr_left
  intro a ha
  have : a.1 ≠ i := by
    intro hai
    apply h
    rw [List.mem_map]
    exact ⟨a, ha, hai⟩
  simp [this]

theorem pushLink_cons (a : ObjectId × List ObjectId) (l : Links) (i x : ObjectId) :
    pushLink (a :: l) i x =
      (if a.1 = i then (a.1, a.2 ++ [x]) else a) :: pushLink l i x := rfl

theorem mem_pushLink (ks : Links) (i x : ObjectId) (b : ObjectId × List ObjectId)
    (h : b ∈ pushLink ks i x) :
    ∃ a ∈ ks, b.1 = a.1 ∧ (b.2 = a.2 ∨ b.2 = a.2 ++ [x]) := by
  unfold pushLink at h
  rw [List.mem_map] at h
  obtain ⟨a, ha, hab⟩ := h
  refine ⟨a, ha, ?_⟩
  by_cases hai : a.1 = i
  · rw [if_pos hai] at hab
    subst hab
    exact ⟨rfl, Or.inr rfl⟩
  · rw [if_neg hai] at hab
    subst hab
    exact ⟨rfl, Or.inl rfl⟩

theorem mem_allRefs_pushLink (ks : Links) (i x y : ObjectId)
    (h : y ∈ allRefs (pushLink ks i x)) : y ∈ allRefs ks ∨ y = x := by
  rw [mem_allRefs] at h
  obtain ⟨b, hb, hy⟩ := h
  obtain ⟨a, ha, -, h2 | h2⟩ := mem_pushLink ks i x b hb
  · left
    rw [mem_allRefs]
    exact ⟨a, ha, h2 ▸ hy⟩
  · rw [h2, List.mem_append, List.mem_singleton] at hy
    rcases hy with hy | hy
    · left
      rw [mem_allRefs]
      exact ⟨a, ha, hy⟩
    · exact Or.inr hy

theorem Ordered_pushLink (ks : Links) (i x : ObjectId)
    (ho : Ordered ks) (hx : x ∉ ks.map Prod.fst) : Ordered (pushLink ks i x) := by
  induction ks with
  | nil => trivial
  | cons a l ih =>
    rw [pushLink_cons]
    obtain ⟨h1, h2⟩ := ho
    have hxa : a.1 ≠ x := by
      intro h
      apply hx
      simp [h]
    have hxl : x ∉ l.map Prod.fst := by
      intro h
      apply hx
      simp only [List.map_cons, List.mem_cons]
      exact Or.inr h
    have hfst : (if a.1 = i then (a.1, a.2 ++ [x]) else a).1 = a.1 := by
      split <;> rfl
    refine ⟨?_, ih h2 hxl⟩
    intro b hb
    rw [hfst]
    have hb' : b ∈ pushLink (a :: l) i x := by
      rw [pushLink_cons]; exact hb
    obtain ⟨c, hc, -, h3 | h3⟩ := mem_pushLink (a :: l) i x b hb'
    · rw [h3]; exact h1 c hc
    · rw [h3, List.mem_append, List.mem_singleton]
      rintro (h | h)
      · exact h1 c hc h
      · exact hxa h

theorem nodup_allRefs_pushLink (ks : Links) (i x : ObjectId)
    (hids : (ks.map Prod.fst).Nodup) (hrefs : (allRefs ks).Nodup) (hx : x ∉ allRefs ks) :
    (allRefs (pushLink ks i x)).Nodup := by
  induction ks with
  | nil => exact List.nodup_nil
  | cons a l ih =>
    rw [pushLink_cons]
    simp only [List.map_cons, List.nodup_cons] at hids
    simp only [allRefs, List.nodup_append, List.mem_append, not_or] at hrefs hx
    obtain ⟨ha, hl, hdisj⟩ := hrefs
    by_cases hai : a.1 = i
    · rw [if_pos hai]
      have hil : i ∉ l.map Prod.fst := hai ▸ hids.1
      rw [pushLink_of_not_mem l i x hil]
      simp only [allRefs]
      rw [List.nodup_append]
      refine ⟨?_, hl, ?_⟩
      · rw [List.nodup_append]
        refine ⟨ha, List.nodup_singleton _, ?_⟩
        intro y hy hy'
        rw [List.mem_singleton] at hy'
        exact hx.1 (hy' ▸ hy)
      · intro y hy hy'
        rw [List.mem_append, List.mem_singleton] at hy
        rcases hy with hy | hy
        · exact hdisj hy hy'
        · exact hx.2 (hy ▸ hy')
    · rw [if_neg hai]
      simp only [allRefs]
      rw [List.nodup_append]
      refine ⟨ha, ih hids.2 hl hx.2, ?_⟩
      intro y hy hy'
      rcases mem_allRefs_pushLink l i x y hy' with h | h
      · exact hdisj hy h
      · exact hx.1 (h ▸ hy)

theorem WellLinked_pushLink (ks : Links) (i x : ObjectId) (h : WellLinked ks)
    (hid : x ∉ ks.map Prod.fst) (href : x ∉ allRefs ks) : WellLinked (pushLink ks i x) :=
  { ids := by rw [pushLink_ids]; exact h.ids
    refs := nodup_allRefs_pushLink ks i x h.ids h.refs href
    ordered := Ordered_pushLink ks i x h.ordered hid }

theorem allRefs_append (ks ks' : Links) : allRefs (ks ++ ks') = allRefs ks ++ allRefs ks' := by
  induction ks with
  | nil => rfl
  | cons a l ih => simp [allRefs, ih]

theorem Ordered_append_leaf (ks : Links) (g : ObjectId) (h : Ordered ks) :
    Ordered (ks ++ [(g, [])]) := by
  induction ks with
  | nil =>
    refine ⟨?_, trivial⟩
    intro b hb
    simp only [List.mem_singleton] at hb
    subst hb
    simp
  | cons a l ih =>
    obtain ⟨h1, h2⟩ := h
    refine ⟨?_, ih h2⟩
    intro b hb
    have hb' : b ∈ a :: l ∨ b = (g, []) := by
      rcases List.mem_cons.1 hb with hb | hb
      · exact Or.inl (hb ▸ List.mem_cons_self _ _)
      · rcases List.mem_append.1 hb with hb | hb
        · exact Or.inl (List.mem_cons_of_mem _ hb)
        · exact Or.inr (List.mem_singleton.1 hb)
    rcases hb' with hb' | hb'
    · exact h1 b hb'
    · subst hb'
      simp

theorem WellLinked_append_leaf (ks : Links) (g : ObjectId) (h : WellLinked ks)
    (hid : g ∉ ks.map Prod.fst) : WellLinked (ks ++ [(g, [])]) :=
  { ids := by
      rw [List.map_append, List.map_cons, List.map_nil, List.nodup_append]
      refine ⟨h.ids, List.nodup_singleton _, ?_⟩
      intro y hy hy'
      rw [List.mem_singleton] at hy'
      have hyg : y = g := hy'
      exact hid (hyg ▸ hy)
    refs := by
      rw [allRefs_append]
      simpa [allRefs] using h.refs
    ordered := Ordered_append_leaf ks g h.ordered }

theorem Ordered_filter (ks : Links) (p : ObjectId × List ObjectId → Bool) (h : Ordered ks) :
    Ordered (ks.filter p) := by
  induction ks with
  | nil => trivial
  | cons a l ih =>
    obtain ⟨h1, h2⟩ := h
    rw [List.filter_cons]
    split
    · refine ⟨?_, ih h2⟩
      intro b hb
      apply h1
      rcases List.mem_cons.1 hb with hb | hb
      · rw [hb]; exact List.mem_cons_self _ _
      · exact List.mem_cons_of_mem _ (List.mem_of_mem_filter hb)
    · exact ih h2

theorem nodup_allRefs_filter (ks : Links) (p : ObjectId × List ObjectId → Bool)
    (h : (allRefs ks).Nodup) : (allRefs (ks.filter p)).Nodup := by
  induction ks with
  | nil => exact List.nodup_nil
  | cons a l ih =>
    simp only [allRefs, List.nodup_append] at h
    obtain ⟨ha, hl, hdisj⟩ := h
    rw [List.filter_cons]
    split
    · simp only [allRefs]
      rw [List.nodup_append]
      refine ⟨ha, ih hl, ?_⟩
      intro y hy hy'
      apply hdisj hy
      rw [mem_allRefs] at hy' ⊢
      obtain ⟨k, hk, hyk⟩ := hy'
      exact ⟨k, List.mem_of_mem_filter hk, hyk⟩
    · exact ih hl

theorem WellLinked_filter (ks : Links) (p : ObjectId × List ObjectId → Bool)
    (h : WellLinked ks) : WellLinked (ks.filter p) :=
  { ids := (List.Nodup.sublist (List.Sublist.map Prod.fst (List.filter_sublist ks)) h.ids)
    refs := nodup_allRefs_filter ks p h.refs
    ordered := Ordered_filter ks p h.ordered }

/-! ### Links: from the invariant to the forest -/

theorem allRefs_unique (ks : Links) (h : (allRefs ks).Nodup)
    (ka kb : ObjectId × List ObjectId) (ha : ka ∈ ks) (hb : kb ∈ ks) (x : ObjectId)
    (hxa : x ∈ ka.2) (hxb : x ∈ kb.2) : ka = kb := by
  induction ks with
  | nil => cases ha
  | cons k l ih =>
    simp only [allRefs, List.nodup_append] at h
    obtain ⟨-, hl, hdisj⟩ := h
    rcases List.mem_cons.1 ha with ha | ha <;> rcases List.mem_cons.1 hb with hb | hb
    · rw [ha, hb]
    · exfalso
      exact hdisj (ha ▸ hxa) ((mem_allRefs l x).2 ⟨kb, hb, hxb⟩)
    · exfalso
      exact hdisj (hb ▸ hxb) ((mem_allRefs l x).2 ⟨ka, ha, hxa⟩)
    · exact ih hl ha hb

theorem Ordered_noSelf (ks : Links) (h : Ordered ks) (k : ObjectId × List ObjectId)
    (hk : k ∈ ks) : k.1 ∉ k.2 := by
  induction ks with
  | nil => cases hk
  | cons a l ih =>
    obtain ⟨h1, h2⟩ := h
    rcases List.mem_cons.1 hk with hk | hk
    · rw [hk]; exact h1 a (List.mem_cons_self _ _)
    · exact ih h2 hk

theorem position_lt (ks : Links) (h : Ordered ks) (ka kb : ObjectId × List ObjectId)
    (ha : ka ∈ ks) (hb : kb ∈ ks) (hab : kb.1 ∈ ka.2) :
    position ks ka.1 < position ks kb.1 := by
  induction ks with
  | nil => cases ha
  | cons k l ih =>
    obtain ⟨h1, h2⟩ := h
    have hkb : k.1 ≠ kb.1 := by
      intro hk
      exact h1 ka ha (hk ▸ hab)
    have hbl : kb ∈ l := by
      rcases List.mem_cons.1 hb with hb | hb
      · exact absurd (hb ▸ rfl) hkb
      · exact hb
    simp only [position, if_neg hkb]
    by_cases hka : k.1 = ka.1
    · rw [if_pos hka]
      omega
    · rw [if_neg hka]
      have hal : ka ∈ l := by
        rcases List.mem_cons.1 ha with ha | ha
        · exact absurd (ha ▸ rfl) hka
        · exact ha
      have := ih h2 hal hbl
      omega

theorem links_mem (ms : List Microbe) (a : Microbe) (ha : a ∈ ms) :
    (a._id, a.microbials) ∈ links ms := by
  unfold links
  rw [List.mem_map]
  exact ⟨a, ha, rfl⟩

theorem eq_of_id_eq (ms : List Microbe) (hnd : (ms.map (fun m => m._id)).Nodup)
    (a b : Microbe) (ha : a ∈ ms) (hb : b ∈ ms) (hab : a._id = b._id) : a = b :=
  List.inj_on_of_nodup_map hnd ha hb hab

theorem refers_position (ms : List Microbe) (h : WellLinked (links ms)) (a b : Microbe)
    (hr : Relation.TransGen (refers ms) a b) :
    position (links ms) a._id < position (links ms) b._id := by
  induction hr with
  | single hab =>
    obtain ⟨ha, hb, hmem⟩ := hab
    exact position_lt (links ms) h.ordered (a._id, a.microbials) (_, _)
      (links_mem ms a ha) (links_mem ms _ hb) hmem
  | tail _ hbc ih =>
    obtain ⟨hb, hc, hmem⟩ := hbc
    have := position_lt (links ms) h.ordered (_, _) (_, _)
      (links_mem ms _ hb) (links_mem ms _ hc) hmem
    exact lt_trans ih this

theorem Forest_of_wellLinked (ms : List Microbe) (h : WellLinked (links ms)) : Forest ms :=
  { oneReferrer := by
      intro a ha b hb x hxa hxb
      have hk := allRefs_unique (links ms) h.refs (a._id, a.microbials) (b._id, b.microbials)
        (links_mem ms a ha) (links_mem ms b hb) x hxa hxb
      have hid : a._id = b._id := congrArg Prod.fst hk
      exact eq_of_id_eq ms (links_ids ms ▸ h.ids) a b ha hb hid
    noSelf := by
      intro a ha
      exact Ordered_noSelf (links ms) h.ordered (a._id, a.microbials) (links_mem ms a ha)
    noCycle := by
      intro a hr
      exact lt_irrefl _ (refers_position ms h a a hr) }


/-! ### Links: each plain operation keeps the invariant -/

theorem linkReferrer_fst_push (ms : List Microbe) (o : Outbreak) (m : Microbe)
    (c : Option String) :
    (linkReferrer ms o m c).1 = ms ∨
      ∃ i, (linkReferrer ms o m c).1 = Microbe.push ms i m._id := by
  unfold linkReferrer
  by_cases ht : truthy c = true
  · cases hf : Microbe.findOne ms (jsString c) with
    | none => simp [ht, hf]
    | some r =>
      right
      refine ⟨r._id, ?_⟩
      simp only [ht, hf, if_true]
      split <;> rfl
  · simp [ht]

theorem createMicrobe_wellLinked (w : World) (gen : Gen) (body : MicrobeBody)
    (hid : body._id = none) (hms : body.microbials = none)
    (hfresh : gen.objectId ∉ w.microbes.map (fun m => m._id))
    (hunref : gen.objectId ∉ allRefs (links w.microbes))
    (h : WellLinked (links w.microbes)) :
    WellLinked (links (createMicrobe w gen (some body)).1.microbes) := by
  by_cases ht : truthy body.outbreak_id = true
  · cases ho : Outbreak.findOne w.outbreaks (jsString body.outbreak_id) with
    | none => simpa [createMicrobe, ht, ho] using h
    | some outbreak =>
      have hmid : (buildMicrobe gen body outbreak)._id = gen.objectId := by
        simp [buildMicrobe, Microbe.new, hid]
      have hmm : (buildMicrobe gen body outbreak).microbials = [] := by
        simp [buildMicrobe, Microbe.new, hms]
      have hfresh' : gen.objectId ∉ (links w.microbes).map Prod.fst := by
        rw [links_ids]; exact hfresh
      have hlinked : WellLinked (links
          (linkReferrer w.microbes outbreak (buildMicrobe gen body outbreak) body.code).1) ∧
          gen.objectId ∉ (links
            (linkReferrer w.microbes outbreak (buildMicrobe gen body outbreak)
              body.code).1).map Prod.fst := by
        rcases linkReferrer_fst_push w.microbes outbreak (buildMicrobe gen body outbreak)
          body.code with hl | ⟨i, hl⟩
        · rw [hl]; exact ⟨h, hfresh'⟩
        · rw [hl, links_push, hmid]
          exact ⟨WellLinked_pushLink _ i _ h hfresh' hunref, by rw [pushLink_ids]; exact hfresh'⟩
      rw [createMicrobe_resolved w gen body outbreak ht ho]
      cases hi : Microbe.insert
          (linkReferrer w.microbes outbreak (buildMicrobe gen body outbreak) body.code).1
          (buildMicrobe gen body outbreak) with
      | error e => exact hlinked.1
      | ok ms =>
        obtain ⟨hmseq, -⟩ := Microbe.insert_ok _ _ _ hi
        simp only []
        rw [hmseq, links_append, hmid, hmm]
        exact WellLinked_append_leaf _ _ hlinked.1 hlinked.2
  · simpa [createMicrobe, ht] using h

theorem Microbe.assign_keeps_microbials (m x : Microbe) (p : MicrobePatch)
    (hp : p.microbials = none) :
    (Microbe.assign x (Microbe.modified m p)).microbials = x.microbials := by
  simp [Microbe.assign, Microbe.modified, hp]

theorem links_replace (ms : List Microbe) (m : Microbe) (p : MicrobePatch)
    (hp : p.microbials = none) :
    links (ms.map (fun x =>
      if x._id = (Microbe.assign m p)._id then Microbe.assign x (Microbe.modified m p)
      else x)) = links ms := by
  unfold links
  rw [List.map_map]
  apply List.map_congr_left
  intro x _
  simp only [Function.comp]
  split
  · rename_i hx
    rw [Microbe.assign_modified_id m x p hx, Microbe.assign_keeps_microbials m x p hp]
  · rfl

theorem links_filter (ms : List Microbe) (i : ObjectId) :
    links (ms.filter (fun x => x._id ≠ i)) =
      (links ms).filter (fun k => decide (k.1 ≠ i)) := by
  induction ms with
  | nil => rfl
  | cons a l ih =>
    unfold links at ih ⊢
    by_cases h : a._id = i
    · simp only [List.filter_cons, List.map_cons, h, ne_eq, not_true_eq_false, decide_False,
        Bool.false_eq_true, if_false]
      simpa using ih
    · simp only [List.filter_cons, List.map_cons, h, ne_eq, not_false_eq_true, decide_True,
        if_true, List.cons.injEq, true_and]
      simpa using ih

theorem plain_create_fresh (w : World) (gen : Gen) (body : MicrobeBody)
    (h : (Op.createMicrobe gen body).plain w = true) :
    body._id = none ∧ body.microbials = none ∧
    gen.objectId ∉ w.microbes.map (fun m => m._id) ∧
    gen.objectId ∉ allRefs (links w.microbes) := by
  simp only [Op.plain, Bool.and_eq_true, Option.isNone_iff_eq_none, Bool.not_eq_true',
    List.any_eq_false, decide_eq_true_eq] at h
  obtain ⟨⟨⟨h1, h2⟩, h3⟩, h4⟩ := h
  refine ⟨h1, h2, ?_, ?_⟩
  · intro hmem
    rw [List.mem_map] at hmem
    obtain ⟨m, hm, hmi⟩ := hmem
    exact h3 m hm hmi
  · intro hmem
    rw [mem_allRefs] at hmem
    obtain ⟨k, hk, hkx⟩ := hmem
    unfold links at hk
    rw [List.mem_map] at hk
    obtain ⟨m, hm, hmk⟩ := hk
    subst hmk
    exact h4 m hm hkx

theorem runOp_wellLinked (w : World) (op : Op) (hp : op.plain w = true)
    (h : WellLinked (links w.microbes)) : WellLinked (links (runOp w op).microbes) := by
  cases op with
  | createMicrobe gen body =>
    obtain ⟨h1, h2, h3, h4⟩ := plain_create_fresh w gen body hp
    exact createMicrobe_wellLinked w gen body h1 h2 h3 h4 h
  | updateMicrobe id p =>
    rcases runOp_updateMicrobe w id p with hw | ⟨m, -, hw⟩
    · rw [hw]; exact h
    · have hpm : p.microbials = none := by simpa [Op.plain] using hp
      rw [hw]
      simp only []
      rw [links_replace w.microbes m p hpm]
      exact h
  | deleteMicrobe id =>
    rcases runOp_deleteMicrobe w id with hw | ⟨m, -, hw⟩
    · rw [hw]; exact h
    · rw [hw]
      simp only []
      rw [links_filter]
      exact WellLinked_filter _ _ h
  | updateOutbreak id p =>
    rcases runOp_updateOutbreak w id p with hw | ⟨o, -, hw⟩
    · rw [hw]; exact h
    · rw [hw]; exact h

theorem runOps_wellLinked (ops : List Op) (w : World) (hp : allPlain w ops = true)
    (h : WellLinked (links w.microbes)) : WellLinked (links (runOps w ops).microbes) := by
  induction ops generalizing w with
  | nil => exact h
  | cons op rest ih =>
    simp only [allPlain, Bool.and_eq_true] at hp
    exact ih (runOp w op) hp.2 (runOp_wellLinked w op hp.1 h)

/-- C16, refuted as stated: starting without microbes, a signup followed by an
update whose patch names `microbials` leaves a microbe that lists its own id,
and so does a single signup whose body submits its own `_id` and `microbials`;
neither state is a forest. -/
theorem microbials_self_reference :
    (runOps emptyStore
        [.createMicrobe { objectId := 21, slug := "rb" } (signupBody "ob" "b@x"),
         .updateMicrobe (.wellFormed 21) { noMicrobePatch with microbials := some [21] }]
      ).microbes.map (fun m => (m._id, m.microbials)) = [(21, [21])] ∧
    ¬ Forest (runOps emptyStore
        [.createMicrobe { objectId := 21, slug := "rb" } (signupBody "ob" "b@x"),
         .updateMicrobe (.wellFormed 21) { noMicrobePatch with microbials := some [21] }]
      ).microbes ∧
    (runOps emptyStore
        [.createMicrobe { objectId := 21, slug := "rb" }
          { signupBody "ob" "b@x" with _id := some 5, microbials := some [5] }]
      ).microbes.map (fun m => (m._id, m.microbials)) = [(5, [5])] ∧
    ¬ Forest (runOps emptyStore
        [.createMicrobe { objectId := 21, slug := "rb" }
          { signupBody "ob" "b@x" with _id := some 5, microbials := some [5] }]
      ).microbes := by
  refine ⟨by decide, ?_, by decide, ?_⟩
  · intro hf
    exact hf.noSelf
      { sampleSignup with microbials := [21] } (by decide) (by decide)
  · intro hf
    exact hf.noSelf
      { sampleSignup with _id := 5, microbials := [5] } (by decide) (by decide)

/-- C16, amended: in every state reached from a store without microbes by
`createMicrobe` calls whose body submits neither `_id` nor `microbials` and
whose generated id is new (not the id of a stored microbe and not listed in any
`microbials`), by `updateMicrobe` calls whose patch does not name `microbials`,
and by `deleteMicrobe` calls, the `microbials` relation is a forest: an id is
listed by at most one microbe, no microbe lists its own id, and following the
relation never leads back to the starting microbe. -/
theorem forest_of_plain_ops (ops : List Op) (w : World)
    (h0 : w.microbes = []) (hp : allPlain w ops = true) :
    Forest (runOps w ops).microbes := by
  apply Forest_of_wellLinked
  apply runOps_wellLinked ops w hp
  rw [h0]
  exact { ids := List.nodup_nil, refs := List.nodup_nil, ordered := trivial }

theorem forest_of_plain_ops_witness :
    Forest (runOps emptyStore
      [.createMicrobe { objectId := 20, slug := "ra" } (signupBody "ob" "a@x"),
       .createMicrobe { objectId := 21, slug := "rb" }
         { signupBody "ob" "b@x" with code := some "ra" },
       .createMicrobe { objectId := 22, slug := "rc" }
         { signupBody "ob" "c@x" with code := some "rb" },
       .updateMicrobe (.wellFormed 21) { noMicrobePatch with name := some "B" },
       .deleteMicrobe (.wellFormed 22)]).microbes :=
  forest_of_plain_ops
    [.createMicrobe { objectId := 20, slug := "ra" } (signupBody "ob" "a@x"),
     .createMicrobe { objectId := 21, slug := "rb" }
       { signupBody "ob" "b@x" with code := some "ra" },
     .createMicrobe { objectId := 22, slug := "rc" }
       { signupBody "ob" "c@x" with code := some "rb" },
     .updateMicrobe (.wellFormed 21) { noMicrobePatch with name := some "B" },
     .deleteMicrobe (.wellFormed 22)]
    emptyStore rfl (by decide)

end OutbreakCats
